import Mathlib

set_option autoImplicit false

/-!
# Job variants of the workflow engine: external-trigger (Jenkins) and scanning

Shallow embedding of
`pkg/microservice/aslan/core/workflow/service/workflow/job/job_jenkins.go` and
`pkg/microservice/aslan/core/workflow/service/workflow/job/job_scanning.go`.

Conventions of the embedding.

* A Go `error` is its message (`GoError`); the `nil` error is `none`.  A call
  `v, err := f(..)` whose value is only read when `err == nil` is an `Except`.
* A method with a pointer receiver takes the receiver and returns the receiver
  after the call next to the Go return values.
* Slices of pointers (`[]*T`) are lists of values: every element is taken to be
  non-nil, and a `nil` slice is the empty list.  The decoder builds its result
  from the serialised payload, so the pointers of a freshly decoded spec are
  pairwise different and are not shared with the payload it was decoded from:
  an update through one of them is an update of that list position of the
  decoded spec alone.
* `Job.Spec` is an `interface{}`: either the typed spec a method stored there or
  any other document (`Payload.raw`).
* Functions, tables and constants of the repository that live outside the two
  files are fields of `Deps` and `Consts`: every theorem holds for all of them.
-/

namespace Zadig

/-- A Go `error`, identified with the text of `err.Error()`. -/
abbrev GoError := String

/-- An untyped Go value (`interface{}`) read from the CI server, kept as a token. -/
abbrev AnyValue := String

/-! ## Data model -/

/-- `commonmodels.JenkinsJobParameter`: one declared parameter of a target job
(`Type_` is the Go field `Type`). -/
structure JenkinsJobParameter where
  Name : String
  Value : String
  Type_ : String
  Choices : List String
  deriving DecidableEq, Repr

/-- `commonmodels.JenkinsJobInfo`: one target job on the CI server. -/
structure JenkinsJobInfo where
  JobName : String
  Parameters : List JenkinsJobParameter
  deriving DecidableEq, Repr

/-- `commonmodels.JenkinsJobSpec`: integration identifier and target jobs. -/
structure JenkinsJobSpec where
  ID : String
  Jobs : List JenkinsJobInfo
  deriving DecidableEq, Repr

/-- Modelled from the spec: type `types.Repository`, declared outside the two
files; a source-control checkout instruction with repo name, checkout path,
branch and owner. -/
structure Repository where
  RepoOwner : String
  RepoName : String
  CheckoutPath : String
  Branch : String
  deriving DecidableEq, Repr

/-- `commonmodels.ShareStorageInfo`, only handed on to `getShareStorageDetail`. -/
structure ShareStorageInfo where
  Enabled : Bool
  ShareStorages : List String
  deriving DecidableEq, Repr

/-- `commonmodels.ScanningModule`: one scan sub-target of a scanning job. -/
structure ScanningModule where
  Name : String
  Repos : List Repository
  ShareStorageInfo : Option ShareStorageInfo
  deriving DecidableEq, Repr

/-- `commonmodels.ZadigScanningJobSpec`: the scan sub-targets of a job. -/
structure ZadigScanningJobSpec where
  Scannings : List ScanningModule
  deriving DecidableEq, Repr

/-- The value held by `Job.Spec` (an `interface{}`). -/
inductive Payload where
  | raw (doc : String)
  | jenkins (spec : JenkinsJobSpec)
  | scanning (spec : ZadigScanningJobSpec)
  deriving DecidableEq, Repr

/-- `commonmodels.Job`: name, kind discriminator and kind-specific payload. -/
structure Job where
  Name : String
  JobType : String
  Spec : Payload
  deriving DecidableEq, Repr

/-- `commonmodels.WorkflowV4`, the fields the two variants read. -/
structure WorkflowV4 where
  Project : String
  Name : String
  DisplayName : String
  ShareStorages : List String
  deriving DecidableEq, Repr

/-- `commonmodels.KeyVal`: an environment entry; fields a literal leaves out are
zero (`IsCredential` is `false`). -/
structure KeyVal where
  Key : String
  Value : String
  IsCredential : Bool := false
  deriving DecidableEq, Repr

/-- `commonmodels.Output`: a declared output name. -/
structure Output where
  Name : String
  Description : String
  deriving DecidableEq, Repr

/-- `commonmodels.JobTaskJenkinsJobInfo`. -/
structure JobTaskJenkinsJobInfo where
  JobName : String
  Parameters : List JenkinsJobParameter
  deriving DecidableEq, Repr

/-- `commonmodels.JobTaskJenkinsSpec`: execution spec of an external-trigger task. -/
structure JobTaskJenkinsSpec where
  ID : String
  Job : JobTaskJenkinsJobInfo
  deriving DecidableEq, Repr

/-- `step.Tool`. -/
structure Tool where
  Name : String
  Version : String
  deriving DecidableEq, Repr

/-- The `Spec` of a `StepTask` (an `interface{}`): one of the step specs of
package `step`, or nothing for the two debug hooks. -/
inductive StepSpec where
  | none
  | StepToolInstallSpec (Installs : List Tool)
  | StepGitSpec (Repos : List Repository)
  | StepShellSpec (Scripts : List String) (SkipPrepare : Bool)
  | StepSonarCheckSpec (Parameter CheckDir SonarToken SonarServer : String)
  deriving DecidableEq, Repr

/-- `commonmodels.StepTask`: one ordered action of a Task Unit. -/
structure StepTask where
  Name : String
  JobName : String
  StepType : String
  Spec : StepSpec
  deriving DecidableEq, Repr

/-- `setting.RequestSpec`, copied from the stored definition. -/
structure RequestSpec where
  CpuLimit : Int
  MemoryLimit : Int
  deriving DecidableEq, Repr

/-- `commonmodels.RegistryNamespace`, only handed on to the task. -/
structure RegistryNamespace where
  ID : String
  RegAddr : String
  deriving DecidableEq, Repr

/-- `commonmodels.StorageDetail`, produced by `getShareStorageDetail`. -/
structure StorageDetail where
  Name : String
  SubPath : String
  deriving DecidableEq, Repr

/-- `commonmodels.JobProperties`. -/
structure JobProperties where
  Timeout : Int
  ResourceRequest : String
  ResReqSpec : RequestSpec
  ClusterID : String
  StrategyID : String
  BuildOS : String
  ImageFrom : String
  Envs : List KeyVal
  Registries : List RegistryNamespace
  ShareStorageDetails : List StorageDetail
  deriving DecidableEq, Repr

/-- `commonmodels.JobTaskFreestyleSpec`: execution spec of a scanning task. -/
structure JobTaskFreestyleSpec where
  Properties : JobProperties
  Steps : List StepTask
  deriving DecidableEq, Repr

/-- The `Spec` of a `JobTask` (an `interface{}`). -/
inductive JobTaskSpec where
  | jenkins (spec : JobTaskJenkinsSpec)
  | freestyle (spec : JobTaskFreestyleSpec)
  deriving DecidableEq, Repr

/-- `commonmodels.JobTask`: one compiled Task Unit.  `JobInfo` is a
`map[string]string` written as a literal; it is kept as the list of its
entries.  `Timeout` is zero and `Outputs` empty where a literal leaves them out. -/
structure JobTask where
  Name : String
  Key : String
  JobInfo : List (String × String)
  JobType : String
  Spec : JobTaskSpec
  Timeout : Int := 0
  Outputs : List Output := []
  deriving DecidableEq, Repr

/-! ## The CI server and the stores -/

/-- `commonmodels.JenkinsIntegration`: what `JenkinsIntegrationColl.Get` returns. -/
structure JenkinsIntegration where
  URL : String
  Username : String
  Password : String
  deriving DecidableEq, Repr

/-- The anonymous struct `DefaultParameterValue` of `jenkins.ParameterDefinition`. -/
structure DefaultParameterValue where
  Value : AnyValue
  deriving DecidableEq, Repr

/-- `jenkins.ParameterDefinition`: a parameter the CI server declares for a job
(`Type_` is the Go field `Type`). -/
structure ParameterDefinition where
  Name : String
  Type_ : String
  DefaultParameterValue : DefaultParameterValue
  Choices : List String
  deriving DecidableEq, Repr

/-- `jenkins.Job`: the answer of `client.GetJob`, with what `GetParameters`
returns from it. -/
structure JenkinsServerJob where
  GetParameters : List ParameterDefinition
  deriving DecidableEq, Repr

/-- `commonmodels.ScanningAdvancedSetting`. -/
structure ScanningAdvancedSetting where
  Timeout : Int
  ResReq : String
  ResReqSpec : RequestSpec
  ClusterID : String
  StrategyID : String
  deriving DecidableEq, Repr

/-- `commonmodels.Scanning`: a stored scan definition, the fields `ToJobs`,
`SetPreset` and `GetRepos` read.  `AdvancedSetting` is a pointer that the source
tests against `nil`. -/
structure Scanning where
  Name : String
  ImageID : String
  Repos : List Repository
  AdvancedSetting : Option ScanningAdvancedSetting
  Outputs : List Output
  Envs : List KeyVal
  Installs : List Tool
  ScannerType : String
  Script : String
  SonarID : String
  Parameter : String
  EnableScanner : Bool
  CheckQualityGate : Bool
  deriving DecidableEq, Repr

/-- `commonmodels.BasicImage`. -/
structure BasicImage where
  Value : String
  ImageFrom : String
  deriving DecidableEq, Repr

/-- `commonmodels.SonarIntegration`. -/
structure SonarIntegration where
  ServerAddress : String
  Token : String
  deriving DecidableEq, Repr

/-- String constants of packages `config`, `setting`, `types` and `job` that are
declared outside the two files.  The code stores them or compares them. -/
structure Consts where
  JobNameKey : String
  JobJenkins : String
  JobZadigScanning : String
  ParamTypeString : String
  StepTools : String
  StepGit : String
  StepDebugBefore : String
  StepShell : String
  StepSonarCheck : String
  StepDebugAfter : String
  ScanningTypeSonar : String
  ImageFromKoderover : String
  ImageFromCustom : String

/-- Collaborators of the two variants that are not part of the two files: the
decoder, the stores, the CI-server client, the quality-server accessor, helper
functions of package `job` and library functions. -/
structure Deps where
  consts : Consts
  /-- `commonmodels.IToi(before, after)` at `*JenkinsJobSpec`: the value left in
  `after` and the returned error. -/
  IToiJenkins : Payload → JenkinsJobSpec × Option GoError
  /-- `commonmodels.IToiYaml(before, after)` at `*JenkinsJobSpec`. -/
  IToiYamlJenkins : Payload → JenkinsJobSpec × Option GoError
  /-- `commonmodels.IToi(before, after)` at `*ZadigScanningJobSpec`. -/
  IToiScanning : Payload → ZadigScanningJobSpec × Option GoError
  /-- `commonmodels.IToiYaml(before, after)` at `*ZadigScanningJobSpec`. -/
  IToiYamlScanning : Payload → ZadigScanningJobSpec × Option GoError
  /-- `mongodb.NewJenkinsIntegrationColl().Get(id)`. -/
  JenkinsIntegrationGet : String → Except GoError JenkinsIntegration
  /-- `jenkins.NewClient(url, username, password).GetJob(name)`. -/
  GetJob : JenkinsIntegration → String → Except GoError JenkinsServerJob
  /-- The table `jenkins.ParameterTypeMap`. -/
  ParameterTypeMap : String → Option String
  /-- `fmt.Sprintf("%v", v)`. -/
  SprintfV : AnyValue → String
  /-- `commonrepo.NewScanningColl().Find(project, name)`. -/
  ScanningFind : String → String → Except GoError Scanning
  /-- `commonrepo.NewBasicImageColl().Find(id)`. -/
  BasicImageFind : String → Except GoError BasicImage
  /-- `commonservice.ListRegistryNamespaces("", true, logger)`. -/
  ListRegistryNamespaces : Except GoError (List RegistryNamespace)
  /-- `commonrepo.NewSonarIntegrationColl().GetByID(ctx, id)`. -/
  SonarGetByID : String → Except GoError SonarIntegration
  /-- `sonar.GetSonarProjectKeyFromConfig(parameter)`. -/
  GetSonarProjectKeyFromConfig : String → String
  /-- `sonar.GetSonarAddressWithProjectKey(address, key)`: the returned string
  and the returned error. -/
  GetSonarAddressWithProjectKey : String → String → String × Option GoError
  /-- `mergeRepos(base, override)` of package `job`. -/
  mergeRepos : List Repository → List Repository → List Repository
  /-- `renderRepos(input, origin, kvs)` of package `job`. -/
  renderRepos : List Repository → List Repository → List KeyVal → List Repository
  /-- `jobNameFormat(name)` of package `job`. -/
  jobNameFormat : String → String
  /-- `PrepareDefaultWorkflowTaskEnvs(project, workflow, display, infra, taskID)`. -/
  PrepareDefaultWorkflowTaskEnvs : String → String → String → String → Int → List KeyVal
  /-- `getReposVariables(repos)` of package `job`. -/
  getReposVariables : List Repository → List KeyVal
  /-- `getShareStorageDetail(storages, info, workflow, taskID)` of package `job`. -/
  getShareStorageDetail : List String → Option ShareStorageInfo → String → Int → List StorageDetail
  /-- `replaceWrapLine(script)` of package `job`. -/
  replaceWrapLine : String → String
  /-- `outputScript(outputs)` of package `job`. -/
  outputScript : List Output → List String
  /-- `config.ReaperImage()`. -/
  ReaperImage : String
  /-- `strings.Split(s, sep)`. -/
  Split : String → String → List String
  /-- `strings.ReplaceAll(s, old, new)`. -/
  ReplaceAll : String → String → String → String

/-! ## External-trigger variant (`job_jenkins.go`) -/

/-- `JenkinsJob`: the receiver of the external-trigger lifecycle operations. -/
structure JenkinsJob where
  job : Job
  workflow : WorkflowV4
  spec : Option JenkinsJobSpec
  deriving DecidableEq, Repr

/-- Lines 68-71 of `SetPreset`: the map from parameter name to the user's
parameter, filled in list order (a later entry of the same name replaces an
earlier one). -/
def rawParametersMap (parameters : List JenkinsJobParameter) :
    String → Option JenkinsJobParameter :=
  parameters.foldl
    (fun m parameter => fun k => if k = parameter.Name then some parameter else m k)
    (fun _ => none)

/-- Lines 74-84 of `SetPreset`: the entry built for a server parameter the user
spec does not name. -/
def newParameter (d : Deps) (currentParameter : ParameterDefinition) : JenkinsJobParameter :=
  { Name := currentParameter.Name
    Value := d.SprintfV currentParameter.DefaultParameterValue.Value
    Type_ :=
      match d.ParameterTypeMap currentParameter.Type_ with
      | some t => t
      | none => d.consts.ParamTypeString
    Choices := currentParameter.Choices }

/-- Lines 67-88 of `SetPreset`: the loop over the server's current parameters. -/
def finalParameters (d : Deps) (userParameters : List JenkinsJobParameter)
    (currentParameters : List ParameterDefinition) : List JenkinsJobParameter :=
  currentParameters.foldl
    (fun final currentParameter =>
      match rawParametersMap userParameters currentParameter.Name with
      | none => final ++ [newParameter d currentParameter]
      | some rawParameter => final ++ [rawParameter])
    []

/-- Lines 61-92 of `SetPreset`: the function one goroutine runs for one target
job; it returns the target job as it leaves it and its error. -/
def presetTarget (d : Deps) (info : JenkinsIntegration) (job : JenkinsJobInfo) :
    JenkinsJobInfo × Option GoError :=
  match d.GetJob info job.JobName with
  | .error err =>
    (job, some ("Preset JenkinsJob: get job " ++ job.JobName ++ " error: " ++ err))
  | .ok currentJob =>
    let currentParameters := currentJob.GetParameters
    if currentParameters.length > 0 then
      ({ job with Parameters := finalParameters d job.Parameters currentParameters }, none)
    else
      (job, none)

/-- `errgroup.Group.Wait`: waits for every goroutine and returns the error of the
goroutine that failed first, `nil` when none failed.  The goroutines work on
different target jobs, so only the choice of the reported error depends on the
schedule; `first` selects it among the failures. -/
def errgroupWait (first : Nat) (errs : List (Option GoError)) : Option GoError :=
  let failed := errs.filterMap id
  failed[first % failed.length]?

/-- `JenkinsJob.Instantiate` (lines 37-44). -/
def JenkinsJob.Instantiate (d : Deps) (j : JenkinsJob) : JenkinsJob × Option GoError :=
  let decoded := d.IToiJenkins j.job.Spec
  let j1 : JenkinsJob := { j with spec := some decoded.1 }
  match decoded.2 with
  | some err => (j1, some err)
  | none => ({ j1 with job := { j1.job with Spec := .jenkins decoded.1 } }, none)

/-- `JenkinsJob.SetPreset` (lines 46-99). -/
def JenkinsJob.SetPreset (d : Deps) (first : Nat) (j : JenkinsJob) :
    JenkinsJob × Option GoError :=
  let decoded := d.IToiJenkins j.job.Spec
  let j1 : JenkinsJob := { j with spec := some decoded.1 }
  match decoded.2 with
  | some err => (j1, some err)
  | none =>
    match d.JenkinsIntegrationGet decoded.1.ID with
    | .error err => (j1, some ("failed to get Jenkins info from mongo: " ++ err))
    | .ok info =>
      let results := decoded.1.Jobs.map (presetTarget d info)
      let spec : JenkinsJobSpec := { decoded.1 with Jobs := results.map Prod.fst }
      let j2 : JenkinsJob := { j1 with spec := some spec }
      match errgroupWait first (results.map Prod.snd) with
      | some err => (j2, some err)
      | none => ({ j2 with job := { j2.job with Spec := .jenkins spec } }, none)

/-- `JenkinsJob.MergeArgs` (lines 101-108). -/
def JenkinsJob.MergeArgs (d : Deps) (j : JenkinsJob) (args : Job) :
    JenkinsJob × Option GoError :=
  let decoded := d.IToiJenkins args.Spec
  let j1 : JenkinsJob := { j with spec := some decoded.1 }
  match decoded.2 with
  | some err => (j1, some err)
  | none => ({ j1 with job := { j1.job with Spec := .jenkins decoded.1 } }, none)

/-- Lines 121-137 of `ToJobs`: the Task Unit appended for one target job. -/
def jenkinsJobTask (d : Deps) (j : JenkinsJob) (spec : JenkinsJobSpec)
    (job : JenkinsJobInfo) : JobTask :=
  { Name := j.job.Name
    JobInfo := [(d.consts.JobNameKey, j.job.Name), ("jenkins_job_name", job.JobName)]
    Key := j.job.Name ++ "." ++ job.JobName
    JobType := d.consts.JobJenkins
    Spec := .jenkins
      { ID := spec.ID
        Job := { JobName := job.JobName, Parameters := job.Parameters } }
    Timeout := 0 }

/-- `JenkinsJob.ToJobs` (lines 110-141): the receiver after the call, the
returned task list and the returned error. -/
def JenkinsJob.ToJobs (d : Deps) (j : JenkinsJob) (_taskID : Int) :
    JenkinsJob × List JobTask × Option GoError :=
  let decoded := d.IToiJenkins j.job.Spec
  let j1 : JenkinsJob := { j with spec := some decoded.1 }
  match decoded.2 with
  | some err => (j1, [], some err)
  | none =>
    let j2 : JenkinsJob := { j1 with job := { j1.job with Spec := .jenkins decoded.1 } }
    if decoded.1.Jobs.length = 0 then
      (j2, [], some "Jenkins job list is empty")
    else
      (j2, decoded.1.Jobs.foldl (fun resp job => resp ++ [jenkinsJobTask d j2 decoded.1 job]) [],
        none)

/-- `JenkinsJob.LintJob` (lines 143-152). -/
def JenkinsJob.LintJob (d : Deps) (j : JenkinsJob) : JenkinsJob × Option GoError :=
  let decoded := d.IToiYamlJenkins j.job.Spec
  let j1 : JenkinsJob := { j with spec := some decoded.1 }
  match decoded.2 with
  | some err => (j1, some err)
  | none =>
    match d.JenkinsIntegrationGet decoded.1.ID with
    | .error err => (j1, some ("not found Jenkins in mongo, err: " ++ err))
    | .ok _ => (j1, none)

/-! ## Scanning variant (`job_scanning.go`) -/

/-- `ScanningJob`: the receiver of the scanning lifecycle operations. -/
structure ScanningJob where
  job : Job
  workflow : WorkflowV4
  spec : Option ZadigScanningJobSpec
  deriving DecidableEq, Repr

/-- How a call ends: it returns, or it stops in a run-time panic. -/
inductive Outcome (α : Type) where
  | returned (a : α)
  | panicked (msg : String)
  deriving DecidableEq, Repr

/-- `ScanningJob.Instantiate` (lines 43-50). -/
def ScanningJob.Instantiate (d : Deps) (j : ScanningJob) : ScanningJob × Option GoError :=
  let decoded := d.IToiYamlScanning j.job.Spec
  let j1 : ScanningJob := { j with spec := some decoded.1 }
  match decoded.2 with
  | some err => (j1, some err)
  | none => ({ j1 with job := { j1.job with Spec := .scanning decoded.1 } }, none)

/-- Lines 60-65 of `SetPreset`: one round of the loop, on one sub-target. -/
def presetScanning (d : Deps) (j : ScanningJob) (scanning : ScanningModule) : ScanningModule :=
  match d.ScanningFind j.workflow.Project scanning.Name with
  | .error _ => scanning
  | .ok scanningInfo => { scanning with Repos := d.mergeRepos scanningInfo.Repos scanning.Repos }

/-- `ScanningJob.SetPreset` (lines 52-69). -/
def ScanningJob.SetPreset (d : Deps) (j : ScanningJob) : ScanningJob × Option GoError :=
  let decoded := d.IToiScanning j.job.Spec
  let j1 : ScanningJob := { j with spec := some decoded.1 }
  match decoded.2 with
  | some err => (j1, some err)
  | none =>
    let spec : ZadigScanningJobSpec :=
      { decoded.1 with Scannings := decoded.1.Scannings.map (presetScanning d j1) }
    ({ j1 with spec := some spec, job := { j1.job with Spec := .scanning spec } }, none)

/-- `ScanningJob.GetRepos` (lines 71-87): the receiver after the call, the
returned repository list and the returned error. -/
def ScanningJob.GetRepos (d : Deps) (j : ScanningJob) :
    ScanningJob × List Repository × Option GoError :=
  let decoded := d.IToiScanning j.job.Spec
  let j1 : ScanningJob := { j with spec := some decoded.1 }
  match decoded.2 with
  | some err => (j1, [], some err)
  | none =>
    (j1,
      decoded.1.Scannings.foldl
        (fun resp scanning =>
          match d.ScanningFind j1.workflow.Project scanning.Name with
          | .error _ => resp
          | .ok scanningInfo => resp ++ d.mergeRepos scanningInfo.Repos scanning.Repos)
        [],
      none)

/-- Lines 102-107 of `MergeArgs`: the inner loop over the override's sub-targets,
left at the first one that has the name of `scanning`. -/
def mergeArgsScanning (d : Deps) (scanning : ScanningModule) :
    List ScanningModule → ScanningModule
  | [] => scanning
  | argsScanning :: rest =>
    if scanning.Name = argsScanning.Name then
      { scanning with Repos := d.mergeRepos scanning.Repos argsScanning.Repos }
    else
      mergeArgsScanning d scanning rest

/-- `ScanningJob.MergeArgs` (lines 89-112). -/
def ScanningJob.MergeArgs (d : Deps) (j : ScanningJob) (args : Job) :
    ScanningJob × Option GoError :=
  if j.job.Name = args.Name ∧ j.job.JobType = args.JobType then
    let decoded := d.IToiScanning j.job.Spec
    let j1 : ScanningJob := { j with spec := some decoded.1 }
    match decoded.2 with
    | some err => (j1, some err)
    | none =>
      let j2 : ScanningJob := { j1 with job := { j1.job with Spec := .scanning decoded.1 } }
      let argsSpec := d.IToiScanning args.Spec
      match argsSpec.2 with
      | some err => (j2, some err)
      | none =>
        let spec : ZadigScanningJobSpec :=
          { decoded.1 with
            Scannings :=
              decoded.1.Scannings.map (fun scanning => mergeArgsScanning d scanning argsSpec.1.Scannings) }
        ({ j2 with spec := some spec, job := { j2.job with Spec := .scanning spec } }, none)
  else
    (j, none)

/-- `ScanningJob.MergeWebhookRepo` (lines 114-124). -/
def ScanningJob.MergeWebhookRepo (d : Deps) (j : ScanningJob) (webhookRepo : Repository) :
    ScanningJob × Option GoError :=
  let decoded := d.IToiScanning j.job.Spec
  let j1 : ScanningJob := { j with spec := some decoded.1 }
  match decoded.2 with
  | some err => (j1, some err)
  | none =>
    let spec : ZadigScanningJobSpec :=
      { decoded.1 with
        Scannings :=
          decoded.1.Scannings.map
            (fun scanning => { scanning with Repos := d.mergeRepos scanning.Repos [webhookRepo] }) }
    ({ j1 with spec := some spec, job := { j1.job with Spec := .scanning spec } }, none)

/-- `getScanningJobVariables` (lines 359-368). -/
def getScanningJobVariables (d : Deps) (repos : List Repository) (taskID : Int)
    (project workflowName workflowDisplayName infrastructure : String) : List KeyVal :=
  let ret : List KeyVal := []
  let ret := ret ++ d.PrepareDefaultWorkflowTaskEnvs project workflowName workflowDisplayName
    infrastructure taskID
  let ret := ret ++ d.getReposVariables repos
  ret

/-- Lines 239-319 of `ToJobs`: the work steps of one sub-target, which depend on
the scan engine.  Given the steps and environment entries assembled so far it
returns both as the branch leaves them, or the error of line 253. -/
def scanningWorkSteps (d : Deps) (scanning : ScanningModule) (scanningInfo : Scanning)
    (jobTaskName repoName branch : String) (steps : List StepTask) (envs : List KeyVal) :
    Except GoError (List StepTask × List KeyVal) :=
  if scanningInfo.ScannerType = d.consts.ScanningTypeSonar then
    let shellStep : StepTask :=
      { Name := scanning.Name ++ "-shell"
        JobName := jobTaskName
        StepType := d.consts.StepShell
        Spec := .StepShellSpec
          (d.Split (d.replaceWrapLine scanningInfo.Script) "\n" ++ d.outputScript scanningInfo.Outputs)
          true }
    let steps := steps ++ [shellStep]
    match d.SonarGetByID scanningInfo.SonarID with
    | .error err =>
      .error ("failed to get sonar integration information to create scanning task, error: " ++ err)
    | .ok sonarInfo =>
      let projectKey := d.GetSonarProjectKeyFromConfig scanningInfo.Parameter
      let resultAddr := (d.GetSonarAddressWithProjectKey sonarInfo.ServerAddress projectKey).1
      let sonarLinkKeyVal : KeyVal := { Key := "SONAR_LINK", Value := resultAddr }
      let envs := envs ++ [sonarLinkKeyVal]
      let envs := envs ++ [{ Key := "SONAR_TOKEN", Value := sonarInfo.Token, IsCredential := true }]
      let envs := envs ++ [{ Key := "SONAR_URL", Value := sonarInfo.ServerAddress }]
      let steps :=
        if scanningInfo.EnableScanner then
          let sonarConfig := "sonar.login=" ++ sonarInfo.Token ++ "\nsonar.host.url="
            ++ sonarInfo.ServerAddress ++ "\n" ++ scanningInfo.Parameter
          let sonarConfig := d.ReplaceAll sonarConfig "$branch" branch
          let sonarScript := "set -e\ncd " ++ repoName
            ++ "\ncat > sonar-project.properties << EOF\n" ++ sonarConfig ++ "\nEOF\nsonar-scanner"
          let sonarShellStep : StepTask :=
            { Name := scanning.Name ++ "-sonar-shell"
              JobName := jobTaskName
              StepType := d.consts.StepShell
              Spec := .StepShellSpec (d.Split (d.replaceWrapLine sonarScript) "\n") true }
          steps ++ [sonarShellStep]
        else
          steps
      let steps :=
        if scanningInfo.CheckQualityGate then
          let sonarChekStep : StepTask :=
            { Name := scanning.Name ++ "-sonar-check"
              JobName := jobTaskName
              StepType := d.consts.StepSonarCheck
              Spec := .StepSonarCheckSpec scanningInfo.Parameter repoName sonarInfo.Token
                sonarInfo.ServerAddress }
          steps ++ [sonarChekStep]
        else
          steps
      .ok (steps, envs)
  else
    let shellStep : StepTask :=
      { Name := scanning.Name ++ "-shell"
        JobName := jobTaskName
        StepType := d.consts.StepShell
        Spec := .StepShellSpec
          (d.Split (d.replaceWrapLine scanningInfo.Script) "\n" ++ d.outputScript scanningInfo.Outputs)
          false }
    .ok (steps ++ [shellStep], envs)

/-- Lines 166-171 of `ToJobs`: the environment entries assembled before the
properties are filled in. -/
def scanningEnvs (d : Deps) (j : ScanningJob) (taskID : Int) (scanning : ScanningModule)
    (scanningInfo : Scanning) : List KeyVal :=
  let envs := getScanningJobVariables d scanning.Repos taskID j.workflow.Project j.workflow.Name
    j.workflow.DisplayName ""
  let envs := envs ++ [{ Key := "SCANNING_NAME", Value := scanning.Name }]
  let envs := envs ++ scanningInfo.Envs
  envs

/-- Lines 173-176 of `ToJobs`: the image the scan runs in. -/
def scanningImage (d : Deps) (basicImage : BasicImage) : String :=
  if basicImage.ImageFrom = d.consts.ImageFromKoderover then
    d.ReplaceAll d.ReaperImage "$\x7bBuildOS\x7d" basicImage.Value
  else
    basicImage.Value

/-- Lines 177-195 of `ToJobs`: the properties of the task, for a stored
definition whose advanced setting is `advancedSetting`. -/
def scanningProperties (d : Deps) (j : ScanningJob) (taskID : Int) (scanning : ScanningModule)
    (scanningInfo : Scanning) (basicImage : BasicImage) (registries : List RegistryNamespace)
    (timeout : Int) (advancedSetting : ScanningAdvancedSetting) : JobProperties :=
  let properties : JobProperties :=
    { Timeout := timeout
      ResourceRequest := advancedSetting.ResReq
      ResReqSpec := advancedSetting.ResReqSpec
      ClusterID := advancedSetting.ClusterID
      StrategyID := advancedSetting.StrategyID
      BuildOS := scanningImage d basicImage
      ImageFrom := d.consts.ImageFromCustom
      Envs := scanningEnvs d j taskID scanning scanningInfo
      Registries := registries
      ShareStorageDetails :=
        d.getShareStorageDetail j.workflow.ShareStorages scanning.ShareStorageInfo j.workflow.Name
          taskID }
  match scanning.Repos with
  | [] => properties
  | repo0 :: _ =>
    { properties with Envs := properties.Envs ++ [{ Key := "BRANCH", Value := repo0.Branch }] }

/-- Lines 197-237 of `ToJobs`: the tool installation step, the source checkout
step and the pre-execution hook; `envs` are the environment entries of the
properties at line 217. -/
def scanningFirstSteps (d : Deps) (scanning : ScanningModule) (scanningInfo : Scanning)
    (jobTaskName : String) (envs : List KeyVal) : List StepTask :=
  let tools : List Tool :=
    scanningInfo.Installs.foldl
      (fun tools tool => tools ++ [{ Name := tool.Name, Version := tool.Version }]) []
  let toolInstallStep : StepTask :=
    { Name := scanning.Name ++ "-" ++ "tool-install"
      JobName := jobTaskName
      StepType := d.consts.StepTools
      Spec := .StepToolInstallSpec tools }
  let steps : List StepTask := [] ++ [toolInstallStep]
  let gitStep : StepTask :=
    { Name := scanning.Name ++ "-git"
      JobName := jobTaskName
      StepType := d.consts.StepGit
      Spec := .StepGitSpec (d.renderRepos scanning.Repos scanningInfo.Repos envs) }
  let steps := steps ++ [gitStep]
  let debugBeforeStep : StepTask :=
    { Name := scanning.Name ++ "-debug-before"
      JobName := jobTaskName
      StepType := d.consts.StepDebugBefore
      Spec := .none }
  steps ++ [debugBeforeStep]

/-- Lines 220-230 of `ToJobs`: the variable `repoName`. -/
def scanningRepoName (scanningInfo : Scanning) : String :=
  match scanningInfo.Repos with
  | [] => ""
  | repo0 :: _ => if repo0.CheckoutPath ≠ "" then repo0.CheckoutPath else repo0.RepoName

/-- Lines 221-230 of `ToJobs`: the variable `branch`. -/
def scanningBranch (scanningInfo : Scanning) : String :=
  match scanningInfo.Repos with
  | [] => ""
  | repo0 :: _ => repo0.Branch

/-- Lines 149-327 of `ToJobs`: one round of the loop after the three lookups
succeeded.  It ends in the Task Unit appended to the result, in the error of
line 253, or in the panic of reading a field of a `nil` advanced setting (lines
179-182). -/
def scanningCompile (d : Deps) (j : ScanningJob) (taskID : Int) (scanning : ScanningModule)
    (scanningInfo : Scanning) (basicImage : BasicImage) (registries : List RegistryNamespace) :
    Outcome (Except GoError JobTask) :=
  let timeout : Int :=
    match scanningInfo.AdvancedSetting with
    | some advancedSetting => advancedSetting.Timeout
    | none => 0
  let jobTaskName := d.jobNameFormat (scanning.Name ++ "-" ++ j.job.Name)
  match scanningInfo.AdvancedSetting with
  | none => .panicked "invalid memory address or nil pointer dereference"
  | some advancedSetting =>
    let properties :=
      scanningProperties d j taskID scanning scanningInfo basicImage registries timeout
        advancedSetting
    let steps := scanningFirstSteps d scanning scanningInfo jobTaskName properties.Envs
    match scanningWorkSteps d scanning scanningInfo jobTaskName (scanningRepoName scanningInfo)
        (scanningBranch scanningInfo) steps properties.Envs with
    | .error err => .returned (.error err)
    | .ok (steps, envs) =>
      let debugAfterStep : StepTask :=
        { Name := scanning.Name ++ "-debug-after"
          JobName := jobTaskName
          StepType := d.consts.StepDebugAfter
          Spec := .none }
      let steps := steps ++ [debugAfterStep]
      .returned (.ok
        { Name := jobTaskName
          Key := j.job.Name ++ "." ++ scanning.Name
          JobInfo := [(d.consts.JobNameKey, j.job.Name), ("scanning_name", scanning.Name)]
          JobType := d.consts.JobZadigScanning
          Spec := .freestyle { Properties := { properties with Envs := envs }, Steps := steps }
          Timeout := timeout
          Outputs := scanningInfo.Outputs })

/-- Lines 137-327 of `ToJobs`: one round of the loop, on one sub-target. -/
def scanningJobTask (d : Deps) (j : ScanningJob) (taskID : Int) (scanning : ScanningModule) :
    Outcome (Except GoError JobTask) :=
  match d.ScanningFind j.workflow.Project scanning.Name with
  | .error err => .returned (.error ("find scanning: " ++ scanning.Name ++ " error: " ++ err))
  | .ok scanningInfo =>
    match d.BasicImageFind scanningInfo.ImageID with
    | .error err =>
      .returned (.error ("find basic image: " ++ scanningInfo.ImageID ++ " error: " ++ err))
    | .ok basicImage =>
      match d.ListRegistryNamespaces with
      | .error err => .returned (.error ("list registries error: " ++ err))
      | .ok registries => scanningCompile d j taskID scanning scanningInfo basicImage registries

/-- Lines 136-328 of `ToJobs`: the loop over the sub-targets, with the task list
compiled so far. -/
def toJobsLoop (d : Deps) (j : ScanningJob) (taskID : Int) :
    List ScanningModule → List JobTask → Outcome (List JobTask × Option GoError)
  | [], resp => .returned (resp, none)
  | scanning :: rest, resp =>
    match scanningJobTask d j taskID scanning with
    | .panicked msg => .panicked msg
    | .returned (.error err) => .returned (resp, some err)
    | .returned (.ok jobTask) => toJobsLoop d j taskID rest (resp ++ [jobTask])

/-- `ScanningJob.ToJobs` (lines 126-331): when the call returns, the receiver
after it, the returned task list and the returned error. -/
def ScanningJob.ToJobs (d : Deps) (j : ScanningJob) (taskID : Int) :
    Outcome (ScanningJob × List JobTask × Option GoError) :=
  let decoded := d.IToiScanning j.job.Spec
  let j1 : ScanningJob := { j with spec := some decoded.1 }
  match decoded.2 with
  | some err => .returned (j1, [], some err)
  | none =>
    let j2 : ScanningJob := { j1 with job := { j1.job with Spec := .scanning decoded.1 } }
    match toJobsLoop d j2 taskID decoded.1.Scannings [] with
    | .panicked msg => .panicked msg
    | .returned (resp, err) => .returned (j2, resp, err)

/-- `ScanningJob.LintJob` (lines 333-335). -/
def ScanningJob.LintJob (_d : Deps) (j : ScanningJob) : ScanningJob × Option GoError :=
  (j, none)

/-! ## The two variants behind one interface -/

/-- A job variant, as selected by the kind discriminator. -/
inductive JobCtl where
  | jenkins (j : JenkinsJob)
  | scanning (j : ScanningJob)
  deriving DecidableEq, Repr

/-- The name of the job a variant owns. -/
def JobCtl.jobName : JobCtl → String
  | .jenkins j => j.job.Name
  | .scanning j => j.job.Name

/-- The sub-target names the decoded spec of a variant declares, in order. -/
def JobCtl.subTargets (d : Deps) : JobCtl → List String
  | .jenkins j => (d.IToiJenkins j.job.Spec).1.Jobs.map (fun job => job.JobName)
  | .scanning j => (d.IToiScanning j.job.Spec).1.Scannings.map (fun scanning => scanning.Name)

/-- The Task Units `ToJobs` hands back for a variant (none when the call panics). -/
def JobCtl.ToJobs (d : Deps) (taskID : Int) : JobCtl → List JobTask
  | .jenkins j => (j.ToJobs d taskID).2.1
  | .scanning j =>
    match j.ToJobs d taskID with
    | .returned (_, resp, _) => resp
    | .panicked _ => []

/-! ## Concrete data used to evaluate the embedding -/

/-- Constants with pairwise different values. -/
def exampleConsts : Consts :=
  { JobNameKey := "job_name"
    JobJenkins := "jenkins"
    JobZadigScanning := "zadig-scanning"
    ParamTypeString := "string"
    StepTools := "tools"
    StepGit := "git"
    StepDebugBefore := "debug_before"
    StepShell := "shell"
    StepSonarCheck := "sonar_check"
    StepDebugAfter := "debug_after"
    ScanningTypeSonar := "sonar"
    ImageFromKoderover := "koderover"
    ImageFromCustom := "custom" }

/-- A decoder for external-trigger specs: it accepts a payload that holds a typed
external-trigger spec and rejects every other payload. -/
def exampleIToiJenkins : Payload → JenkinsJobSpec × Option GoError
  | .jenkins spec => (spec, none)
  | _ => ({ ID := "", Jobs := [] }, some "unmarshal task error")

/-- A decoder for scanning specs: it accepts a payload that holds a typed scanning
spec and rejects every other payload. -/
def exampleIToiScanning : Payload → ZadigScanningJobSpec × Option GoError
  | .scanning spec => (spec, none)
  | _ => ({ Scannings := [] }, some "unmarshal task error")

/-- A CI server with three jobs: `build` declares no parameter, `deploy` declares
`ENV` and `TAG`, and `build-b` declares `TAG`; every other job is unknown. -/
def exampleGetJob (_info : JenkinsIntegration) (name : String) :
    Except GoError JenkinsServerJob :=
  if name = "build" then .ok { GetParameters := [] }
  else if name = "deploy" then
    .ok { GetParameters :=
      [ { Name := "ENV", Type_ := "ChoiceParameterDefinition",
          DefaultParameterValue := { Value := "dev" }, Choices := ["dev", "prod"] },
        { Name := "TAG", Type_ := "UnknownDefinition",
          DefaultParameterValue := { Value := "latest" }, Choices := [] } ] }
  else if name = "build-b" then
    .ok { GetParameters :=
      [ { Name := "TAG", Type_ := "StringParameterDefinition",
          DefaultParameterValue := { Value := "latest" }, Choices := [] } ] }
  else .error "404"

/-- Collaborators for the concrete evaluations: one CI integration `ci-1`, the
server of `exampleGetJob`, an empty scanning store. -/
def exampleDeps : Deps :=
  { consts := exampleConsts
    IToiJenkins := exampleIToiJenkins
    IToiYamlJenkins := exampleIToiJenkins
    IToiScanning := exampleIToiScanning
    IToiYamlScanning := exampleIToiScanning
    JenkinsIntegrationGet := fun id =>
      if id = "ci-1" then .ok { URL := "http://ci", Username := "u", Password := "p" }
      else .error "no documents in result"
    GetJob := exampleGetJob
    ParameterTypeMap := fun t =>
      if t = "ChoiceParameterDefinition" then some "choice"
      else if t = "StringParameterDefinition" then some "string"
      else none
    SprintfV := fun v => v
    ScanningFind := fun _ _ => .error "not found"
    BasicImageFind := fun _ => .error "not found"
    ListRegistryNamespaces := .ok []
    SonarGetByID := fun _ => .error "not found"
    GetSonarProjectKeyFromConfig := fun _ => ""
    GetSonarAddressWithProjectKey := fun address _ => (address, none)
    mergeRepos := fun base _ => base
    renderRepos := fun input _ _ => input
    jobNameFormat := fun name => name
    PrepareDefaultWorkflowTaskEnvs := fun _ _ _ _ _ => []
    getReposVariables := fun _ => []
    getShareStorageDetail := fun _ _ _ _ => []
    replaceWrapLine := fun script => script
    outputScript := fun _ => []
    ReaperImage := "reaper"
    Split := fun s sep => s.splitOn sep
    ReplaceAll := fun s old new => s.replace old new }

/-- The workflow of the concrete jobs. -/
def exampleWorkflow : WorkflowV4 :=
  { Project := "demo", Name := "wf", DisplayName := "wf", ShareStorages := [] }

/-- An external-trigger job named `name` with integration `ci-1` and the given
target jobs. -/
def exampleJenkinsJob (name : String) (jobs : List JenkinsJobInfo) : JenkinsJob :=
  { job := { Name := name, JobType := "jenkins", Spec := .jenkins { ID := "ci-1", Jobs := jobs } }
    workflow := exampleWorkflow
    spec := none }

/-- A scanning job named `name` with the given scan sub-targets. -/
def exampleScanningJob (name : String) (scannings : List ScanningModule) : ScanningJob :=
  { job := { Name := name, JobType := "zadig-scanning", Spec := .scanning { Scannings := scannings } }
    workflow := exampleWorkflow
    spec := none }

/-- A user-declared parameter `name` with value `value`. -/
def exampleParameter (name value : String) : JenkinsJobParameter :=
  { Name := name, Value := value, Type_ := "string", Choices := [] }

/-- The integration record `exampleDeps` stores under `ci-1`. -/
def exampleIntegration : JenkinsIntegration :=
  { URL := "http://ci", Username := "u", Password := "p" }

/-- Job `ci` with target `build` (the server declares no parameter for it) for
which the user declared the parameter `X`. -/
def exampleBuildJob : JenkinsJob :=
  exampleJenkinsJob "ci" [{ JobName := "build", Parameters := [exampleParameter "X" "1"] }]

/-- Job `ci` with target `deploy` (the server declares `ENV` and `TAG`) for which
the user declared `TAG` twice and the parameter `X`. -/
def exampleDeployJob : JenkinsJob :=
  exampleJenkinsJob "ci"
    [{ JobName := "deploy"
       Parameters := [exampleParameter "TAG" "1", exampleParameter "X" "1", exampleParameter "TAG" "2"] }]

/-- Job `ci` with targets `build-a` (unknown to the server) and `build-b`. -/
def exampleTwoTargetJob : JenkinsJob :=
  exampleJenkinsJob "ci"
    [{ JobName := "build-a", Parameters := [] }, { JobName := "build-b", Parameters := [] }]

/-- Job `ci` with no target job. -/
def exampleEmptyJob : JenkinsJob :=
  exampleJenkinsJob "ci" []

/-- Scanning job `scan` that declares no scan sub-target. -/
def exampleEmptyScanningJob : ScanningJob :=
  exampleScanningJob "scan" []

/-- Scanning job `scan` with the sub-target `lint-svc` and one declared repository. -/
def exampleLintJob : ScanningJob :=
  exampleScanningJob "scan"
    [{ Name := "lint-svc"
       Repos := [{ RepoOwner := "acme", RepoName := "svc", CheckoutPath := "", Branch := "main" }]
       ShareStorageInfo := none }]

/-- An override for another job: its name is `nightly`, its payload decodes as
an external-trigger spec with integration `ci-2` and target `release`. -/
def exampleOtherArgs : Job :=
  { Name := "nightly"
    JobType := "jenkins"
    Spec := .jenkins { ID := "ci-2", Jobs := [{ JobName := "release", Parameters := [] }] } }

/-- An override for another job whose payload cannot be decoded. -/
def exampleBrokenArgs : Job :=
  { Name := "nightly", JobType := "jenkins", Spec := .raw "not a spec" }

/-- External-trigger job `a` with the target job `b.c`. -/
def exampleDottedTargetJob : JenkinsJob :=
  exampleJenkinsJob "a" [{ JobName := "b.c", Parameters := [] }]

/-- External-trigger job `a.b` with the target job `c`. -/
def exampleDottedNameJob : JenkinsJob :=
  exampleJenkinsJob "a.b" [{ JobName := "c", Parameters := [] }]

/-- The advanced setting of the stored scan definitions of `exampleScanDeps`. -/
def exampleAdvancedSetting : ScanningAdvancedSetting :=
  { Timeout := 60
    ResReq := "low"
    ResReqSpec := { CpuLimit := 1000, MemoryLimit := 512 }
    ClusterID := "local"
    StrategyID := "normal" }

/-- The repository the stored scan definitions check out. -/
def exampleStoredRepo : Repository :=
  { RepoOwner := "acme", RepoName := "svc", CheckoutPath := "", Branch := "main" }

/-- Stored scan definition `lint-svc`: generic scripted engine, script
`go vet ./...`, with an advanced setting. -/
def exampleLintScanning : Scanning :=
  { Name := "lint-svc"
    ImageID := "img-1"
    Repos := [exampleStoredRepo]
    AdvancedSetting := some exampleAdvancedSetting
    Outputs := []
    Envs := [{ Key := "GOFLAGS", Value := "-mod=vendor" }]
    Installs := [{ Name := "go", Version := "1.20" }]
    ScannerType := "other"
    Script := "go vet ./..."
    SonarID := ""
    Parameter := ""
    EnableScanner := false
    CheckQualityGate := false }

/-- Stored scan definition `sonar-svc`: code-quality-server engine with
server-side scanning and quality-gate checking enabled; its integration
`sonar-1` exists. -/
def exampleSonarScanning : Scanning :=
  { exampleLintScanning with
    Name := "sonar-svc"
    ScannerType := "sonar"
    SonarID := "sonar-1"
    Parameter := "sonar.projectKey=svc"
    EnableScanner := true
    CheckQualityGate := true }

/-- Stored scan definition `sonar-lost`: code-quality-server engine whose
integration `sonar-9` is not in the store. -/
def exampleLostSonarScanning : Scanning :=
  { exampleSonarScanning with Name := "sonar-lost", SonarID := "sonar-9" }

/-- Stored scan definition `plain-svc`: a definition without advanced setting. -/
def examplePlainScanning : Scanning :=
  { exampleLintScanning with Name := "plain-svc", AdvancedSetting := none }

/-- The scanning store of `exampleScanDeps`: the four definitions above. -/
def exampleScanningFind (_project : String) (name : String) : Except GoError Scanning :=
  if name = "lint-svc" then .ok exampleLintScanning
  else if name = "sonar-svc" then .ok exampleSonarScanning
  else if name = "sonar-lost" then .ok exampleLostSonarScanning
  else if name = "plain-svc" then .ok examplePlainScanning
  else .error "no documents in result"

/-- A repository merge for the concrete evaluations: the base list, in which an
entry takes the branch of the first override entry of the same owner and name. -/
def exampleMergeRepos (base override : List Repository) : List Repository :=
  base.map (fun repo =>
    match override.find? (fun o => o.RepoOwner = repo.RepoOwner ∧ o.RepoName = repo.RepoName) with
    | some o => { repo with Branch := o.Branch }
    | none => repo)

/-- Collaborators with a filled scanning store: the four stored definitions, the
base image `img-1`, no registry, the quality-server integration `sonar-1`, and a
result-URL resolver that always fails. -/
def exampleScanDeps : Deps :=
  { exampleDeps with
    ScanningFind := exampleScanningFind
    BasicImageFind := fun id =>
      if id = "img-1" then .ok { Value := "ubuntu:20.04", ImageFrom := "custom" }
      else .error "no documents in result"
    ListRegistryNamespaces := .ok []
    SonarGetByID := fun id =>
      if id = "sonar-1" then .ok { ServerAddress := "http://sonar", Token := "t0ken" }
      else .error "no documents in result"
    GetSonarAddressWithProjectKey := fun _ _ => ("", some "project not found")
    mergeRepos := exampleMergeRepos
    PrepareDefaultWorkflowTaskEnvs := fun project workflow _ _ _ =>
      [{ Key := "PROJECT", Value := project }, { Key := "WORKFLOW", Value := workflow }]
    getReposVariables := fun repos =>
      repos.map (fun repo => { Key := "REPONAME", Value := repo.RepoName }) }

/-- A scan sub-target `name` that declares the repository `acme/svc` on branch
`dev`. -/
def exampleModule (name : String) : ScanningModule :=
  { Name := name
    Repos := [{ RepoOwner := "acme", RepoName := "svc", CheckoutPath := "", Branch := "dev" }]
    ShareStorageInfo := none }

/-- Scanning job `scan` with the sub-targets `lint-svc` and `sonar-svc`. -/
def exampleTwoScanJob : ScanningJob :=
  exampleScanningJob "scan" [exampleModule "lint-svc", exampleModule "sonar-svc"]

/-- Scanning job `scan` with the sub-targets `lint-svc`, `gone` (no stored
definition) and `sonar-svc`. -/
def exampleGoneScanJob : ScanningJob :=
  exampleScanningJob "scan"
    [exampleModule "lint-svc", exampleModule "gone", exampleModule "sonar-svc"]

/-- Scanning job `scan` with the sub-target `sonar-lost`. -/
def exampleLostSonarJob : ScanningJob :=
  exampleScanningJob "scan" [exampleModule "sonar-lost"]

/-- Scanning job `scan` with the sub-target `plain-svc`. -/
def examplePlainJob : ScanningJob :=
  exampleScanningJob "scan" [exampleModule "plain-svc"]

/-- An override for the scanning job `scan`: sub-target `sonar-svc` on branch
`hotfix`, and a sub-target `extra` the receiver does not declare. -/
def exampleScanArgs : Job :=
  { Name := "scan"
    JobType := "zadig-scanning"
    Spec := .scanning
      { Scannings :=
          [ { Name := "sonar-svc"
              Repos := [{ RepoOwner := "acme", RepoName := "svc", CheckoutPath := "", Branch := "hotfix" }]
              ShareStorageInfo := none },
            { Name := "extra", Repos := [], ShareStorageInfo := none } ] } }

/-- External-trigger job `ci` whose integration `ci-9` is not in the store. -/
def exampleLostIntegrationJob : JenkinsJob :=
  { job := { Name := "ci", JobType := "jenkins", Spec := .jenkins { ID := "ci-9", Jobs := [] } }
    workflow := exampleWorkflow
    spec := none }

/-- The receiver `exampleTwoScanJob` after a call that decoded its payload. -/
def exampleTwoScanJobDecoded : ScanningJob :=
  { exampleTwoScanJob with
    spec := some { Scannings := [exampleModule "lint-svc", exampleModule "sonar-svc"] } }

/-- The Task Units `ToJobs` compiles for `exampleTwoScanJob` against
`exampleScanDeps` with task id 7. -/
def exampleTwoScanTasks : List JobTask :=
  (JobCtl.scanning exampleTwoScanJob).ToJobs exampleScanDeps 7

/-- A sub-target `ToJobs` cannot resolve: its stored scan definition is not
found, or the base image of the definition is not found, or the registry listing
fails, or the definition uses the code-quality-server engine and its
quality-server integration is not found. -/
def Unresolved (d : Deps) (project : String) (scanning : ScanningModule) : Prop :=
  (∃ err, d.ScanningFind project scanning.Name = .error err) ∨
  (∃ scanningInfo err, d.ScanningFind project scanning.Name = .ok scanningInfo ∧
    d.BasicImageFind scanningInfo.ImageID = .error err) ∨
  (∃ err, d.ListRegistryNamespaces = .error err) ∨
  (∃ scanningInfo err, d.ScanningFind project scanning.Name = .ok scanningInfo ∧
    scanningInfo.ScannerType = d.consts.ScanningTypeSonar ∧
    d.SonarGetByID scanningInfo.SonarID = .error err)

/-! ## Loops that append one element per round -/

theorem foldl_append_singleton {α β : Type} (f : α → β) (l : List α) (init : List β) :
    l.foldl (fun acc x => acc ++ [f x]) init = init ++ l.map f := by
  induction l generalizing init with
  | nil => simp
  | cons x xs ih => simp [ih]

/-! ## `SetPreset` of the external-trigger variant -/

/-- The map built from the user's parameters answers with the last entry of the
asked name, if there is one; `m` is the map before the loop. -/
theorem rawParametersMap_fold (ps : List JenkinsJobParameter)
    (m : String → Option JenkinsJobParameter) (k : String) :
    (ps.foldl
        (fun m parameter => fun k => if k = parameter.Name then some parameter else m k) m) k
      = match (ps.filter (fun u => decide (u.Name = k))).getLast? with
        | some u => some u
        | none => m k := by
  induction ps generalizing m with
  | nil => simp
  | cons p rest ih =>
    rw [List.foldl_cons, ih]
    by_cases hp : p.Name = k
    · have hk : k = p.Name := hp.symm
      rw [List.filter_cons_of_pos (by simpa using hp)]
      cases hrest : rest.filter (fun u => decide (u.Name = k)) with
      | nil => simp [hk]
      | cons q qs =>
        rw [List.getLast?_cons_cons, List.getLast?_eq_getLast (q :: qs) (by simp)]
    · have hk : ¬ k = p.Name := fun h => hp h.symm
      rw [List.filter_cons_of_neg (by simpa using hp)]
      cases hlast : (rest.filter (fun u => decide (u.Name = k))).getLast? with
      | none => simp [hk]
      | some u => simp

theorem rawParametersMap_eq (ps : List JenkinsJobParameter) (k : String) :
    rawParametersMap ps k = (ps.filter (fun u => decide (u.Name = k))).getLast? := by
  unfold rawParametersMap
  rw [rawParametersMap_fold]
  cases (ps.filter (fun u => decide (u.Name = k))).getLast? <;> rfl

theorem rawParametersMap_name (ps : List JenkinsJobParameter) (k : String)
    (u : JenkinsJobParameter) (h : rawParametersMap ps k = some u) : u.Name = k ∧ u ∈ ps := by
  rw [rawParametersMap_eq] at h
  have hmem := List.mem_of_getLast?_eq_some h
  rw [List.mem_filter] at hmem
  exact ⟨by simpa using hmem.2, hmem.1⟩

theorem rawParametersMap_none (ps : List JenkinsJobParameter) (k : String) :
    rawParametersMap ps k = none ↔ ∀ u ∈ ps, u.Name ≠ k := by
  rw [rawParametersMap_eq, List.getLast?_eq_none_iff, List.filter_eq_nil_iff]
  simp

/-- The rebuilt list has one entry per server parameter, in the server's order. -/
theorem finalParameters_eq_map (d : Deps) (user : List JenkinsJobParameter)
    (cur : List ParameterDefinition) :
    finalParameters d user cur
      = cur.map (fun p =>
          match rawParametersMap user p.Name with
          | none => newParameter d p
          | some rawParameter => rawParameter) := by
  unfold finalParameters
  rw [← List.nil_append (List.map _ cur), ← foldl_append_singleton]
  congr 1
  funext final p
  cases rawParametersMap user p.Name <;> rfl

theorem finalParameters_names (d : Deps) (user : List JenkinsJobParameter)
    (cur : List ParameterDefinition) :
    (finalParameters d user cur).map (fun p => p.Name) = cur.map (fun p => p.Name) := by
  rw [finalParameters_eq_map, List.map_map]
  apply List.map_congr_left
  intro p _
  simp only [Function.comp]
  cases h : rawParametersMap user p.Name with
  | none => rfl
  | some u => exact (rawParametersMap_name user p.Name u h).1

theorem errgroupWait_eq_none (first : Nat) (errs : List (Option GoError)) :
    errgroupWait first errs = none ↔ ∀ e ∈ errs, e = none := by
  unfold errgroupWait
  constructor
  · intro h e he
    cases e with
    | none => rfl
    | some msg =>
      exfalso
      have hmem : msg ∈ errs.filterMap id := by
        rw [List.mem_filterMap]
        exact ⟨some msg, he, rfl⟩
      have hpos : 0 < (errs.filterMap id).length := List.length_pos_of_mem hmem
      rw [List.getElem?_eq_none_iff] at h
      exact absurd (Nat.mod_lt first hpos) (by omega)
  · intro h
    have hnil : errs.filterMap id = [] := by
      rw [List.filterMap_eq_nil_iff]
      intro e he
      rw [h e he]
      rfl
    simp [hnil]

theorem errgroupWait_some_of_mem (first : Nat) (errs : List (Option GoError)) (msg : GoError)
    (h : some msg ∈ errs) : errgroupWait first errs ≠ none := by
  intro hnone
  have := (errgroupWait_eq_none first errs).1 hnone (some msg) h
  cases this

/-- What a run of `SetPreset` without error has done: the payload decoded, the
integration was found, every target job was found on the server, and the payload
now holds the decoded spec with every target job as its goroutine left it. -/
theorem JenkinsJob.SetPreset_ok (d : Deps) (first : Nat) (j : JenkinsJob)
    (h : (j.SetPreset d first).2 = none) :
    (d.IToiJenkins j.job.Spec).2 = none ∧
    ∃ info, d.JenkinsIntegrationGet (d.IToiJenkins j.job.Spec).1.ID = .ok info ∧
      (∀ job ∈ (d.IToiJenkins j.job.Spec).1.Jobs, (presetTarget d info job).2 = none) ∧
      (j.SetPreset d first).1.job.Spec
        = .jenkins
            { ID := (d.IToiJenkins j.job.Spec).1.ID
              Jobs := (d.IToiJenkins j.job.Spec).1.Jobs.map (fun job => (presetTarget d info job).1) } := by
  cases hdec : (d.IToiJenkins j.job.Spec).2 with
  | some err => simp [JenkinsJob.SetPreset, hdec] at h
  | none =>
    cases hinfo : d.JenkinsIntegrationGet (d.IToiJenkins j.job.Spec).1.ID with
    | error err => simp [JenkinsJob.SetPreset, hdec, hinfo] at h
    | ok info =>
      cases hwait : errgroupWait first
          (List.map Prod.snd (List.map (presetTarget d info) (d.IToiJenkins j.job.Spec).1.Jobs)) with
      | some err => simp only [JenkinsJob.SetPreset, hdec, hinfo, hwait] at h; cases h
      | none =>
        refine ⟨rfl, info, rfl, ?_, ?_⟩
        · intro job hjob
          apply (errgroupWait_eq_none _ _).1 hwait
          simp only [List.map_map, List.mem_map, Function.comp]
          exact ⟨job, hjob, rfl⟩
        · simp only [JenkinsJob.SetPreset, hdec, hinfo, hwait]
          simp [List.map_map, Function.comp]

/-- A run of `SetPreset` that reports an error leaves the Job as it was. -/
theorem JenkinsJob.SetPreset_error_frame (d : Deps) (first : Nat) (j : JenkinsJob)
    (h : (j.SetPreset d first).2 ≠ none) : (j.SetPreset d first).1.job = j.job := by
  cases hdec : (d.IToiJenkins j.job.Spec).2 with
  | some err => simp only [JenkinsJob.SetPreset, hdec]
  | none =>
    cases hinfo : d.JenkinsIntegrationGet (d.IToiJenkins j.job.Spec).1.ID with
    | error err => simp only [JenkinsJob.SetPreset, hdec, hinfo]
    | ok info =>
      cases hwait : errgroupWait first
          (List.map Prod.snd (List.map (presetTarget d info) (d.IToiJenkins j.job.Spec).1.Jobs)) with
      | some err => simp only [JenkinsJob.SetPreset, hdec, hinfo, hwait]
      | none => simp only [JenkinsJob.SetPreset, hdec, hinfo, hwait] at h; exact absurd rfl h

theorem presetTarget_ok (d : Deps) (info : JenkinsIntegration) (job : JenkinsJobInfo)
    (h : (presetTarget d info job).2 = none) :
    ∃ cur, d.GetJob info job.JobName = .ok cur ∧
      (presetTarget d info job).1
        = if cur.GetParameters.length > 0 then
            { job with Parameters := finalParameters d job.Parameters cur.GetParameters }
          else job := by
  unfold presetTarget at h ⊢
  cases hget : d.GetJob info job.JobName with
  | error err => simp [hget] at h
  | ok cur =>
    refine ⟨cur, rfl, ?_⟩
    by_cases hlen : cur.GetParameters.length > 0 <;> simp [hlen]

theorem presetTarget_error (d : Deps) (info : JenkinsIntegration) (job : JenkinsJobInfo)
    (err : GoError) (h : d.GetJob info job.JobName = .error err) :
    (presetTarget d info job).2
      = some ("Preset JenkinsJob: get job " ++ job.JobName ++ " error: " ++ err) := by
  simp [presetTarget, h]

/-- C1 (counterexample): for target `build` the server declares the empty
parameter list and the user declared `X`; `SetPreset` succeeds and the target
keeps `X`, so its parameter names are not the names the server declares. -/
theorem setPreset_names_counterexample :
    (exampleBuildJob.SetPreset exampleDeps 0).2 = none ∧
    exampleDeps.JenkinsIntegrationGet "ci-1" = .ok exampleIntegration ∧
    exampleDeps.GetJob exampleIntegration "build" = .ok { GetParameters := [] } ∧
    (exampleBuildJob.SetPreset exampleDeps 0).1.job.Spec
      = .jenkins
          { ID := "ci-1"
            Jobs := [{ JobName := "build", Parameters := [exampleParameter "X" "1"] }] } ∧
    ¬ (∀ n : String,
        n ∈ [exampleParameter "X" "1"].map (fun p => p.Name)
          ↔ n ∈ ([] : List ParameterDefinition).map (fun p => p.Name)) := by
  refine ⟨rfl, rfl, rfl, rfl, ?_⟩
  intro h
  have := (h "X").1 (by simp [exampleParameter])
  simp at this

/-- C1 (amended): after `SetPreset` succeeds the payload holds the decoded spec
with the same target jobs in the same order, every target job was found on the
server, and for each target: when the server declares a non-empty parameter
list, the names of the target's parameters are exactly the names the server
declares, in the server's order, so a parameter the user declared that the
server does not declare is absent; when the server declares the empty list, the
target's parameter list is the one the user declared. -/
theorem setPreset_names_follow_server (d : Deps) (first : Nat) (j : JenkinsJob)
    (h : (j.SetPreset d first).2 = none) :
    ∃ info spec,
      d.JenkinsIntegrationGet (d.IToiJenkins j.job.Spec).1.ID = .ok info ∧
      (j.SetPreset d first).1.job.Spec = .jenkins spec ∧
      List.Forall₂
        (fun before after =>
          after.JobName = before.JobName ∧
          ∃ cur, d.GetJob info before.JobName = .ok cur ∧
            (cur.GetParameters ≠ [] →
              after.Parameters.map (fun p => p.Name) = cur.GetParameters.map (fun p => p.Name) ∧
              ∀ u ∈ before.Parameters,
                u.Name ∉ cur.GetParameters.map (fun p => p.Name) →
                  u.Name ∉ after.Parameters.map (fun p => p.Name)) ∧
            (cur.GetParameters = [] → after.Parameters = before.Parameters))
        (d.IToiJenkins j.job.Spec).1.Jobs spec.Jobs := by
  obtain ⟨_, info, hinfo, hall, hspec⟩ := JenkinsJob.SetPreset_ok d first j h
  refine ⟨info, _, hinfo, hspec, ?_⟩
  rw [List.forall₂_map_right_iff, List.forall₂_same]
  intro job hjob
  obtain ⟨cur, hget, hres⟩ := presetTarget_ok d info job (hall job hjob)
  rw [hres]
  cases hcur : cur.GetParameters with
  | nil => exact ⟨by simp, cur, hget, by simp [hcur], by simp [hcur]⟩
  | cons p ps =>
    refine ⟨by simp, cur, hget, ?_, by simp [hcur]⟩
    intro _
    have hnames := finalParameters_names d job.Parameters (p :: ps)
    refine ⟨by simpa [hcur] using hnames, ?_⟩
    intro u _ hu
    simpa [hcur, hnames] using hu

/-- C1 (witness): job `ci` with target `deploy`, for which the server declares
`ENV` and `TAG`. -/
theorem setPreset_names_follow_server_witness :
    (exampleDeployJob.SetPreset exampleDeps 0).2 = none ∧
    ∃ info spec,
      exampleDeps.JenkinsIntegrationGet (exampleDeps.IToiJenkins exampleDeployJob.job.Spec).1.ID
        = .ok info ∧
      (exampleDeployJob.SetPreset exampleDeps 0).1.job.Spec = .jenkins spec ∧
      List.Forall₂
        (fun before after =>
          after.JobName = before.JobName ∧
          ∃ cur, exampleDeps.GetJob info before.JobName = .ok cur ∧
            (cur.GetParameters ≠ [] →
              after.Parameters.map (fun p => p.Name) = cur.GetParameters.map (fun p => p.Name) ∧
              ∀ u ∈ before.Parameters,
                u.Name ∉ cur.GetParameters.map (fun p => p.Name) →
                  u.Name ∉ after.Parameters.map (fun p => p.Name)) ∧
            (cur.GetParameters = [] → after.Parameters = before.Parameters))
        (exampleDeps.IToiJenkins exampleDeployJob.job.Spec).1.Jobs spec.Jobs :=
  ⟨rfl, setPreset_names_follow_server exampleDeps 0 exampleDeployJob rfl⟩

/-- C2: after `SetPreset` succeeds, for every target job whose server-side
parameter list is non-empty the target's parameter list has the length and the
order of the server's list, and for the server parameter `p` at position `k`:
if the user spec names a parameter `p.Name`, position `k` holds the user's own
entry of that name (the last one, should the user have declared the name more
than once), whole and unchanged; otherwise it holds a new entry with the
server's name, the server's default value rendered as a string, the server's
choices and the type found in `ParameterTypeMap`, the generic string type when
the table has none. -/
theorem setPreset_entries_follow_server (d : Deps) (first : Nat) (j : JenkinsJob)
    (h : (j.SetPreset d first).2 = none) :
    ∃ info spec,
      d.JenkinsIntegrationGet (d.IToiJenkins j.job.Spec).1.ID = .ok info ∧
      (j.SetPreset d first).1.job.Spec = .jenkins spec ∧
      List.Forall₂
        (fun before after =>
          ∃ cur, d.GetJob info before.JobName = .ok cur ∧
            (cur.GetParameters ≠ [] →
              after.Parameters.length = cur.GetParameters.length ∧
              ∀ (k : Nat) (p : ParameterDefinition), cur.GetParameters[k]? = some p →
                ((∃ u ∈ before.Parameters, u.Name = p.Name) →
                  ∃ u, (before.Parameters.filter (fun u => u.Name = p.Name)).getLast? = some u ∧
                    after.Parameters[k]? = some u) ∧
                ((∀ u ∈ before.Parameters, u.Name ≠ p.Name) →
                  after.Parameters[k]? = some
                    { Name := p.Name
                      Value := d.SprintfV p.DefaultParameterValue.Value
                      Type_ :=
                        match d.ParameterTypeMap p.Type_ with
                        | some t => t
                        | none => d.consts.ParamTypeString
                      Choices := p.Choices })))
        (d.IToiJenkins j.job.Spec).1.Jobs spec.Jobs := by
  obtain ⟨_, info, hinfo, hall, hspec⟩ := JenkinsJob.SetPreset_ok d first j h
  refine ⟨info, _, hinfo, hspec, ?_⟩
  rw [List.forall₂_map_right_iff, List.forall₂_same]
  intro job hjob
  obtain ⟨cur, hget, hres⟩ := presetTarget_ok d info job (hall job hjob)
  refine ⟨cur, hget, ?_⟩
  intro hne
  have hlen : cur.GetParameters.length > 0 := List.length_pos.2 hne
  rw [hres, if_pos hlen]
  simp only [finalParameters_eq_map, List.length_map, true_and]
  intro k p hk
  rw [List.getElem?_map, hk, Option.map_some']
  constructor
  · rintro ⟨u, hu, hname⟩
    cases hraw : rawParametersMap job.Parameters p.Name with
    | none => exact absurd hname ((rawParametersMap_none _ _).1 hraw u hu)
    | some v =>
      refine ⟨v, ?_, rfl⟩
      rw [← rawParametersMap_eq]
      exact hraw
  · intro hnone
    rw [(rawParametersMap_none _ _).2 hnone]
    rfl

/-- C2 (witness): job `ci` with target `deploy`; the server declares `ENV` and
`TAG`, the user declared `TAG` twice and `X`. -/
theorem setPreset_entries_follow_server_witness :
    (exampleDeployJob.SetPreset exampleDeps 0).2 = none ∧
    ∃ info spec,
      exampleDeps.JenkinsIntegrationGet (exampleDeps.IToiJenkins exampleDeployJob.job.Spec).1.ID
        = .ok info ∧
      (exampleDeployJob.SetPreset exampleDeps 0).1.job.Spec = .jenkins spec ∧
      List.Forall₂
        (fun before after =>
          ∃ cur, exampleDeps.GetJob info before.JobName = .ok cur ∧
            (cur.GetParameters ≠ [] →
              after.Parameters.length = cur.GetParameters.length ∧
              ∀ (k : Nat) (p : ParameterDefinition), cur.GetParameters[k]? = some p →
                ((∃ u ∈ before.Parameters, u.Name = p.Name) →
                  ∃ u, (before.Parameters.filter (fun u => u.Name = p.Name)).getLast? = some u ∧
                    after.Parameters[k]? = some u) ∧
                ((∀ u ∈ before.Parameters, u.Name ≠ p.Name) →
                  after.Parameters[k]? = some
                    { Name := p.Name
                      Value := exampleDeps.SprintfV p.DefaultParameterValue.Value
                      Type_ :=
                        match exampleDeps.ParameterTypeMap p.Type_ with
                        | some t => t
                        | none => exampleDeps.consts.ParamTypeString
                      Choices := p.Choices })))
        (exampleDeps.IToiJenkins exampleDeployJob.job.Spec).1.Jobs spec.Jobs :=
  ⟨rfl, setPreset_entries_follow_server exampleDeps 0 exampleDeployJob rfl⟩

/-- C3: if the integration lookup fails, or the integration is found and the
parameter lookup of at least one target job fails, `SetPreset` returns an error
and the Job (name, kind and spec payload) is exactly what it was before the
call, whichever failing goroutine reports first. -/
theorem setPreset_failure_keeps_payload (d : Deps) (first : Nat) (j : JenkinsJob)
    (h : (∃ err, d.JenkinsIntegrationGet (d.IToiJenkins j.job.Spec).1.ID = .error err) ∨
      (∃ info, d.JenkinsIntegrationGet (d.IToiJenkins j.job.Spec).1.ID = .ok info ∧
        ∃ job ∈ (d.IToiJenkins j.job.Spec).1.Jobs, ∃ err, d.GetJob info job.JobName = .error err)) :
    (j.SetPreset d first).2 ≠ none ∧ (j.SetPreset d first).1.job = j.job := by
  have herr : (j.SetPreset d first).2 ≠ none := by
    cases hdec : (d.IToiJenkins j.job.Spec).2 with
    | some err => simp [JenkinsJob.SetPreset, hdec]
    | none =>
      rcases h with ⟨err, hget⟩ | ⟨info, hget, job, hjob, err, hjoberr⟩
      · simp [JenkinsJob.SetPreset, hdec, hget]
      · have hmem : some ("Preset JenkinsJob: get job " ++ job.JobName ++ " error: " ++ err)
            ∈ List.map Prod.snd (List.map (presetTarget d info) (d.IToiJenkins j.job.Spec).1.Jobs) := by
          rw [List.map_map, List.mem_map]
          exact ⟨job, hjob, presetTarget_error d info job err hjoberr⟩
        have hwait := errgroupWait_some_of_mem first _ _ hmem
        cases hw : errgroupWait first
            (List.map Prod.snd (List.map (presetTarget d info) (d.IToiJenkins j.job.Spec).1.Jobs)) with
        | none => exact absurd hw hwait
        | some e => simp only [JenkinsJob.SetPreset, hdec, hget, hw]; simp
  exact ⟨herr, JenkinsJob.SetPreset_error_frame d first j herr⟩

/-- C3 (witness): job `ci` with targets `build-a`, which the server does not
know, and `build-b`, which it knows. -/
theorem setPreset_failure_keeps_payload_witness :
    ((∃ err, exampleDeps.JenkinsIntegrationGet
          (exampleDeps.IToiJenkins exampleTwoTargetJob.job.Spec).1.ID = .error err) ∨
      (∃ info, exampleDeps.JenkinsIntegrationGet
          (exampleDeps.IToiJenkins exampleTwoTargetJob.job.Spec).1.ID = .ok info ∧
        ∃ job ∈ (exampleDeps.IToiJenkins exampleTwoTargetJob.job.Spec).1.Jobs,
          ∃ err, exampleDeps.GetJob info job.JobName = .error err)) ∧
    (exampleTwoTargetJob.SetPreset exampleDeps 0).2 ≠ none ∧
    (exampleTwoTargetJob.SetPreset exampleDeps 0).1.job = exampleTwoTargetJob.job :=
  have hyp : (∃ err, exampleDeps.JenkinsIntegrationGet
          (exampleDeps.IToiJenkins exampleTwoTargetJob.job.Spec).1.ID = .error err) ∨
      (∃ info, exampleDeps.JenkinsIntegrationGet
          (exampleDeps.IToiJenkins exampleTwoTargetJob.job.Spec).1.ID = .ok info ∧
        ∃ job ∈ (exampleDeps.IToiJenkins exampleTwoTargetJob.job.Spec).1.Jobs,
          ∃ err, exampleDeps.GetJob info job.JobName = .error err) :=
    Or.inr ⟨exampleIntegration, rfl, { JobName := "build-a", Parameters := [] },
      List.mem_cons_self _ _, "404", rfl⟩
  ⟨hyp, setPreset_failure_keeps_payload exampleDeps 0 exampleTwoTargetJob hyp⟩

/-- C4: when the payload decodes to a spec with an empty target-job list,
`ToJobs` returns the error `Jenkins job list is empty` and no Task Unit. -/
theorem jenkins_toJobs_empty (d : Deps) (j : JenkinsJob) (taskID : Int)
    (hdec : (d.IToiJenkins j.job.Spec).2 = none)
    (hempty : (d.IToiJenkins j.job.Spec).1.Jobs = []) :
    (j.ToJobs d taskID).2.2 = some "Jenkins job list is empty" ∧ (j.ToJobs d taskID).2.1 = [] := by
  simp [JenkinsJob.ToJobs, hdec, hempty]

/-- C4 (witness): job `ci` with no target job. -/
theorem jenkins_toJobs_empty_witness :
    (exampleDeps.IToiJenkins exampleEmptyJob.job.Spec).2 = none ∧
    (exampleDeps.IToiJenkins exampleEmptyJob.job.Spec).1.Jobs = [] ∧
    (exampleEmptyJob.ToJobs exampleDeps 7).2.2 = some "Jenkins job list is empty" ∧
    (exampleEmptyJob.ToJobs exampleDeps 7).2.1 = [] :=
  ⟨rfl, rfl, jenkins_toJobs_empty exampleDeps exampleEmptyJob 7 rfl rfl⟩

/-! ## `ToJobs` and `MergeArgs` -/

/-- A scanning job whose decoded spec declares no sub-target compiles, without
error, to the empty task list. -/
theorem ScanningJob.ToJobs_nil (d : Deps) (j : ScanningJob) (taskID : Int)
    (hdec : (d.IToiScanning j.job.Spec).2 = none)
    (hempty : (d.IToiScanning j.job.Spec).1.Scannings = []) :
    ∃ j1, j.ToJobs d taskID = .returned (j1, [], none) := by
  simp [ScanningJob.ToJobs, hdec, hempty, toJobsLoop]

/-- C5 (the code at the failing input): for the scanning job `scan` whose decoded
spec declares zero scan sub-targets, `ToJobs` returns the empty task list and the
`nil` error, where the claim asks for an error. -/
theorem scanning_toJobs_empty_returns_no_error :
    (exampleDeps.IToiScanning exampleEmptyScanningJob.job.Spec).2 = none ∧
    (exampleDeps.IToiScanning exampleEmptyScanningJob.job.Spec).1.Scannings = [] ∧
    exampleEmptyScanningJob.ToJobs exampleDeps 7
      = .returned
          ({ exampleEmptyScanningJob with spec := some { Scannings := [] } }, [], none) := by
  refine ⟨rfl, rfl, rfl⟩

/-- C6: when the payload decodes to a spec with a non-empty target-job list,
`ToJobs` returns no error and one Task Unit per target job, in declaration
order; the Task Unit of a target has the Key `job name.target name`, the job type
`config.JobJenkins`, timeout 0, and an execution spec with the integration ID of
the job, the target's name and the target's parameter list. -/
theorem jenkins_toJobs_tasks (d : Deps) (j : JenkinsJob) (taskID : Int)
    (hdec : (d.IToiJenkins j.job.Spec).2 = none)
    (hne : (d.IToiJenkins j.job.Spec).1.Jobs ≠ []) :
    (j.ToJobs d taskID).2.2 = none ∧
    List.Forall₂
      (fun job task =>
        task.Key = j.job.Name ++ "." ++ job.JobName ∧
        task.JobType = d.consts.JobJenkins ∧
        task.Timeout = 0 ∧
        task.Spec = .jenkins
          { ID := (d.IToiJenkins j.job.Spec).1.ID
            Job := { JobName := job.JobName, Parameters := job.Parameters } })
      (d.IToiJenkins j.job.Spec).1.Jobs (j.ToJobs d taskID).2.1 := by
  have hlen : ¬ (d.IToiJenkins j.job.Spec).1.Jobs.length = 0 := by
    rw [List.length_eq_zero]
    exact hne
  simp only [JenkinsJob.ToJobs, hdec, if_neg hlen, foldl_append_singleton, List.nil_append,
    true_and]
  rw [List.forall₂_map_right_iff, List.forall₂_same]
  intro job _
  exact ⟨rfl, rfl, rfl, rfl⟩

/-- C6 (witness): job `ci` with targets `build-a` and `build-b`. -/
theorem jenkins_toJobs_tasks_witness :
    (exampleDeps.IToiJenkins exampleTwoTargetJob.job.Spec).2 = none ∧
    (exampleDeps.IToiJenkins exampleTwoTargetJob.job.Spec).1.Jobs ≠ [] ∧
    (exampleTwoTargetJob.ToJobs exampleDeps 7).2.2 = none ∧
    List.Forall₂
      (fun job task =>
        task.Key = exampleTwoTargetJob.job.Name ++ "." ++ job.JobName ∧
        task.JobType = exampleDeps.consts.JobJenkins ∧
        task.Timeout = 0 ∧
        task.Spec = .jenkins
          { ID := (exampleDeps.IToiJenkins exampleTwoTargetJob.job.Spec).1.ID
            Job := { JobName := job.JobName, Parameters := job.Parameters } })
      (exampleDeps.IToiJenkins exampleTwoTargetJob.job.Spec).1.Jobs
      (exampleTwoTargetJob.ToJobs exampleDeps 7).2.1 :=
  ⟨rfl, by decide, jenkins_toJobs_tasks exampleDeps exampleTwoTargetJob 7 rfl (by decide)⟩

/-- Every Task Unit of an external-trigger job carries the bare job name as its
`Name`. -/
theorem JenkinsJob.ToJobs_names (d : Deps) (j : JenkinsJob) (taskID : Int) :
    ∀ task ∈ (j.ToJobs d taskID).2.1, task.Name = j.job.Name := by
  intro task htask
  unfold JenkinsJob.ToJobs at htask
  cases hdec : (d.IToiJenkins j.job.Spec).2 with
  | some err => simp [hdec] at htask
  | none =>
    by_cases hlen : (d.IToiJenkins j.job.Spec).1.Jobs.length = 0
    · simp [hdec, hlen] at htask
    · simp only [hdec, if_neg hlen, foldl_append_singleton, List.nil_append, List.mem_map] at htask
      obtain ⟨job, _, rfl⟩ := htask
      rfl

/-- C8 (the code at the failing input): for job `ci` with the two target jobs
`build-a` and `build-b`, `ToJobs` succeeds and both Task Units have the `Name`
`ci`, where the claim asks for two different names. -/
theorem jenkins_toJobs_same_name :
    (exampleTwoTargetJob.ToJobs exampleDeps 7).2.2 = none ∧
    (exampleTwoTargetJob.ToJobs exampleDeps 7).2.1.map (fun task => task.Key)
      = ["ci.build-a", "ci.build-b"] ∧
    (exampleTwoTargetJob.ToJobs exampleDeps 7).2.1.map (fun task => task.Name) = ["ci", "ci"] := by
  refine ⟨rfl, rfl, rfl⟩

/-- C9: when the override's name or kind differs from the receiver's, `MergeArgs`
of a scanning job returns no error and leaves the receiver, and with it the
spec payload of its Job, unchanged; the override's payload is not looked at. -/
theorem scanning_mergeArgs_mismatch (d : Deps) (j : ScanningJob) (args : Job)
    (h : j.job.Name ≠ args.Name ∨ j.job.JobType ≠ args.JobType) :
    (j.MergeArgs d args).2 = none ∧ (j.MergeArgs d args).1 = j ∧
      (j.MergeArgs d args).1.job.Spec = j.job.Spec := by
  have hcond : ¬ (j.job.Name = args.Name ∧ j.job.JobType = args.JobType) := by
    rintro ⟨hname, hkind⟩
    rcases h with h | h
    · exact h hname
    · exact h hkind
  simp [ScanningJob.MergeArgs, hcond]

/-- C9 (witness): the scanning job `scan` and an override named `nightly` whose
payload cannot be decoded. -/
theorem scanning_mergeArgs_mismatch_witness :
    (exampleLintJob.job.Name ≠ exampleBrokenArgs.Name ∨
      exampleLintJob.job.JobType ≠ exampleBrokenArgs.JobType) ∧
    (exampleLintJob.MergeArgs exampleDeps exampleBrokenArgs).2 = none ∧
    (exampleLintJob.MergeArgs exampleDeps exampleBrokenArgs).1 = exampleLintJob ∧
    (exampleLintJob.MergeArgs exampleDeps exampleBrokenArgs).1.job.Spec = exampleLintJob.job.Spec :=
  ⟨Or.inl (by decide),
    scanning_mergeArgs_mismatch exampleDeps exampleLintJob exampleBrokenArgs (Or.inl (by decide))⟩

/-- `MergeArgs` of an external-trigger job never compares names or kinds: when
the override's payload decodes, the decoded override becomes the receiver's
payload. -/
theorem JenkinsJob.MergeArgs_takes_override (d : Deps) (j : JenkinsJob) (args : Job)
    (hdec : (d.IToiJenkins args.Spec).2 = none) :
    (j.MergeArgs d args).2 = none ∧
    (j.MergeArgs d args).1.job.Spec = .jenkins (d.IToiJenkins args.Spec).1 := by
  simp [JenkinsJob.MergeArgs, hdec]

/-- C10 (the code at the failing input): the receiver is job `ci`, the override
is for job `nightly`.  With a decodable override payload `MergeArgs` returns no
error and the receiver's spec payload is replaced by the override's; with an
undecodable override payload `MergeArgs` returns an error.  The claim asks for
no error and an unchanged payload in both cases. -/
theorem jenkins_mergeArgs_mismatch_overwrites :
    exampleBuildJob.job.Name ≠ exampleOtherArgs.Name ∧
    (exampleBuildJob.MergeArgs exampleDeps exampleOtherArgs).2 = none ∧
    (exampleBuildJob.MergeArgs exampleDeps exampleOtherArgs).1.job.Spec = exampleOtherArgs.Spec ∧
    (exampleBuildJob.MergeArgs exampleDeps exampleOtherArgs).1.job.Spec ≠ exampleBuildJob.job.Spec ∧
    exampleBuildJob.job.Name ≠ exampleBrokenArgs.Name ∧
    (exampleBuildJob.MergeArgs exampleDeps exampleBrokenArgs).2 = some "unmarshal task error" := by
  refine ⟨by decide, rfl, rfl, by decide, by decide, rfl⟩

/-! ## Composite keys -/

theorem split_at_first_dot (a b s t : List Char) (ha : '.' ∉ a) (hb : '.' ∉ b)
    (h : a ++ '.' :: s = b ++ '.' :: t) : a = b ∧ s = t := by
  induction a generalizing b with
  | nil =>
    cases b with
    | nil => simpa using h
    | cons c cs =>
      simp only [List.nil_append, List.cons_append, List.cons.injEq] at h
      exact absurd (h.1 ▸ List.mem_cons_self _ _) hb
  | cons x xs ih =>
    cases b with
    | nil =>
      simp only [List.nil_append, List.cons_append, List.cons.injEq] at h
      exact absurd (h.1 ▸ List.mem_cons_self _ _) ha
    | cons c cs =>
      simp only [List.cons_append, List.cons.injEq] at h
      obtain ⟨hxc, hrest⟩ := h
      have hxs : '.' ∉ xs := fun hmem => ha (List.mem_cons_of_mem _ hmem)
      have hcs : '.' ∉ cs := fun hmem => hb (List.mem_cons_of_mem _ hmem)
      obtain ⟨h1, h2⟩ := ih cs hxs hcs hrest
      exact ⟨by rw [hxc, h1], h2⟩

theorem split_at_last_dot (a b s t : List Char) (hs : '.' ∉ s) (ht : '.' ∉ t)
    (h : a ++ '.' :: s = b ++ '.' :: t) : a = b ∧ s = t := by
  have hrev := congrArg List.reverse h
  simp only [List.reverse_append, List.reverse_cons, List.append_assoc, List.singleton_append]
    at hrev
  obtain ⟨h1, h2⟩ := split_at_first_dot s.reverse t.reverse a.reverse b.reverse
    (by simpa using hs) (by simpa using ht) hrev
  exact ⟨List.reverse_injective h2, List.reverse_injective h1⟩

/-- Two composite keys agree only for the same job name and sub-target name,
provided the two job names, or the two sub-target names, contain no dot. -/
theorem key_injective (a b s t : String)
    (hdot : ('.' ∉ a.data ∧ '.' ∉ b.data) ∨ ('.' ∉ s.data ∧ '.' ∉ t.data))
    (h : a ++ "." ++ s = b ++ "." ++ t) : a = b ∧ s = t := by
  have hdata : a.data ++ '.' :: s.data = b.data ++ '.' :: t.data := by
    have := congrArg String.data h
    simpa [String.data_append] using this
  rcases hdot with ⟨ha, hb⟩ | ⟨hs, ht⟩
  · obtain ⟨h1, h2⟩ := split_at_first_dot _ _ _ _ ha hb hdata
    exact ⟨String.ext h1, String.ext h2⟩
  · obtain ⟨h1, h2⟩ := split_at_last_dot _ _ _ _ hs ht hdata
    exact ⟨String.ext h1, String.ext h2⟩

theorem key_injective_same_job (a s t : String) (h : a ++ "." ++ s = a ++ "." ++ t) : s = t := by
  have hdata : (a.data ++ ['.']) ++ s.data = (a.data ++ ['.']) ++ t.data := by
    have := congrArg String.data h
    simpa [String.data_append] using this
  exact String.ext (List.append_cancel_left hdata)

theorem scanningCompile_key (d : Deps) (j : ScanningJob) (taskID : Int)
    (scanning : ScanningModule) (scanningInfo : Scanning) (basicImage : BasicImage)
    (registries : List RegistryNamespace) (task : JobTask)
    (h : scanningCompile d j taskID scanning scanningInfo basicImage registries
      = .returned (.ok task)) :
    task.Key = j.job.Name ++ "." ++ scanning.Name := by
  unfold scanningCompile at h
  cases hadv : scanningInfo.AdvancedSetting with
  | none => simp [hadv] at h
  | some advancedSetting =>
    simp only [hadv] at h
    split at h
    · simp at h
    · simp only [Outcome.returned.injEq, Except.ok.injEq] at h
      rw [← h]

/-- The Task Unit one round of the scanning loop compiles has the composite key
of the job and the sub-target. -/
theorem scanningJobTask_key (d : Deps) (j : ScanningJob) (taskID : Int)
    (scanning : ScanningModule) (task : JobTask)
    (h : scanningJobTask d j taskID scanning = .returned (.ok task)) :
    task.Key = j.job.Name ++ "." ++ scanning.Name := by
  unfold scanningJobTask at h
  cases h1 : d.ScanningFind j.workflow.Project scanning.Name with
  | error err => simp [h1] at h
  | ok scanningInfo =>
    simp only [h1] at h
    cases h2 : d.BasicImageFind scanningInfo.ImageID with
    | error err => simp [h2] at h
    | ok basicImage =>
      simp only [h2] at h
      cases h3 : d.ListRegistryNamespaces with
      | error err => simp [h3] at h
      | ok registries =>
        simp only [h3] at h
        exact scanningCompile_key d j taskID scanning scanningInfo basicImage registries task h

/-- The keys of the tasks the scanning loop returns are the keys of the tasks it
started with, followed by the composite keys of a leading part of the
sub-targets, in order. -/
theorem toJobsLoop_keys (d : Deps) (j : ScanningJob) (taskID : Int)
    (scannings : List ScanningModule) (resp : List JobTask) (out : List JobTask)
    (err : Option GoError) (h : toJobsLoop d j taskID scannings resp = .returned (out, err)) :
    ∃ done, done <+: scannings ∧
      out.map (fun task => task.Key)
        = resp.map (fun task => task.Key)
          ++ done.map (fun scanning => j.job.Name ++ "." ++ scanning.Name) := by
  induction scannings generalizing resp with
  | nil =>
    simp only [toJobsLoop, Outcome.returned.injEq, Prod.mk.injEq] at h
    exact ⟨[], List.prefix_refl _, by simp [h.1]⟩
  | cons scanning rest ih =>
    unfold toJobsLoop at h
    split at h
    · simp at h
    · simp only [Outcome.returned.injEq, Prod.mk.injEq] at h
      exact ⟨[], List.nil_prefix, by simp [h.1]⟩
    · rename_i jobTask htask
      obtain ⟨done, hdone, hkeys⟩ := ih _ h
      refine ⟨scanning :: done, by simpa using hdone, ?_⟩
      rw [hkeys]
      simp [scanningJobTask_key d j taskID scanning jobTask htask]

/-- The keys of the Task Units of a variant are, in order, composite keys of a
leading part of its declared sub-targets. -/
theorem JobCtl.ToJobs_keys (d : Deps) (taskID : Int) (c : JobCtl) :
    ∃ done, done <+: c.subTargets d ∧
      (c.ToJobs d taskID).map (fun task => task.Key)
        = done.map (fun name => c.jobName ++ "." ++ name) := by
  cases c with
  | jenkins j =>
    simp only [JobCtl.ToJobs, JobCtl.subTargets, JobCtl.jobName, JenkinsJob.ToJobs]
    cases hdec : (d.IToiJenkins j.job.Spec).2 with
    | some err => exact ⟨[], List.nil_prefix, by simp⟩
    | none =>
      by_cases hlen : (d.IToiJenkins j.job.Spec).1.Jobs.length = 0
      · exact ⟨[], List.nil_prefix, by simp [hlen]⟩
      · refine ⟨_, List.prefix_refl _, ?_⟩
        simp [hlen, foldl_append_singleton, jenkinsJobTask, Function.comp]
  | scanning j =>
    simp only [JobCtl.ToJobs, JobCtl.subTargets, JobCtl.jobName, ScanningJob.ToJobs]
    cases hdec : (d.IToiScanning j.job.Spec).2 with
    | some err => exact ⟨[], List.nil_prefix, by simp⟩
    | none =>
      simp only []
      cases hloop : toJobsLoop d
          { j with spec := some (d.IToiScanning j.job.Spec).1,
                   job := { j.job with Spec := .scanning (d.IToiScanning j.job.Spec).1 } }
          taskID (d.IToiScanning j.job.Spec).1.Scannings [] with
      | panicked msg => exact ⟨[], List.nil_prefix, by simp⟩
      | returned r =>
        obtain ⟨out, err⟩ := r
        obtain ⟨done, hdone, hkeys⟩ := toJobsLoop_keys d _ taskID _ [] out err hloop
        refine ⟨done.map (fun scanning => scanning.Name), hdone.map _, ?_⟩
        simpa [Function.comp] using hkeys

/-- C7 (counterexample): job `a` with the target `b.c` and job `a.b` with the
target `c` have different job names and each declares pairwise different
sub-target names, yet the two Task Units `ToJobs` produces for them both have the
Key `a.b.c`. -/
theorem task_keys_counterexample :
    (JobCtl.jenkins exampleDottedTargetJob).jobName ≠ (JobCtl.jenkins exampleDottedNameJob).jobName ∧
    ((JobCtl.jenkins exampleDottedTargetJob).subTargets exampleDeps).Nodup ∧
    ((JobCtl.jenkins exampleDottedNameJob).subTargets exampleDeps).Nodup ∧
    ((JobCtl.jenkins exampleDottedTargetJob).ToJobs exampleDeps 7
        ++ (JobCtl.jenkins exampleDottedNameJob).ToJobs exampleDeps 7).map (fun task => task.Key)
      = ["a.b.c", "a.b.c"] ∧
    ¬ (((JobCtl.jenkins exampleDottedTargetJob).ToJobs exampleDeps 7
        ++ (JobCtl.jenkins exampleDottedNameJob).ToJobs exampleDeps 7).map
          (fun task => task.Key)).Nodup := by
  refine ⟨by decide, by decide, by decide, rfl, by decide⟩

/-- C7 (amended): for any two jobs (of either variant) with different job names,
each declaring pairwise different sub-target names, the Keys of all Task Units
`ToJobs` produces for the two jobs together are pairwise distinct, provided the
two job names contain no dot or none of the declared sub-target names contains a
dot. -/
theorem task_keys_nodup (d : Deps) (taskID : Int) (a b : JobCtl)
    (hname : a.jobName ≠ b.jobName)
    (ha : (a.subTargets d).Nodup) (hb : (b.subTargets d).Nodup)
    (hdot : ('.' ∉ a.jobName.data ∧ '.' ∉ b.jobName.data) ∨
      (∀ name ∈ a.subTargets d ++ b.subTargets d, '.' ∉ name.data)) :
    ((a.ToJobs d taskID ++ b.ToJobs d taskID).map (fun task => task.Key)).Nodup := by
  obtain ⟨da, hda, hka⟩ := JobCtl.ToJobs_keys d taskID a
  obtain ⟨db, hdb, hkb⟩ := JobCtl.ToJobs_keys d taskID b
  rw [List.map_append, hka, hkb, List.nodup_append]
  refine ⟨?_, ?_, ?_⟩
  · exact (ha.sublist hda.sublist).map (fun s t hst => key_injective_same_job _ s t hst)
  · exact (hb.sublist hdb.sublist).map (fun s t hst => key_injective_same_job _ s t hst)
  · intro key hkeya hkeyb
    rw [List.mem_map] at hkeya hkeyb
    obtain ⟨s, hs, rfl⟩ := hkeya
    obtain ⟨t, ht, hst⟩ := hkeyb
    have hs' : s ∈ a.subTargets d := hda.subset hs
    have ht' : t ∈ b.subTargets d := hdb.subset ht
    have hdot' : ('.' ∉ b.jobName.data ∧ '.' ∉ a.jobName.data) ∨ ('.' ∉ t.data ∧ '.' ∉ s.data) := by
      rcases hdot with ⟨h1, h2⟩ | h
      · exact Or.inl ⟨h2, h1⟩
      · exact Or.inr ⟨h t (List.mem_append_right _ ht'), h s (List.mem_append_left _ hs')⟩
    exact hname (key_injective _ _ _ _ hdot' hst).1.symm

/-- C7 (witness): the external-trigger job `ci` with targets `build-a` and
`build-b`, and the scanning job `scan` with sub-targets `lint-svc` and
`sonar-svc`, compiled against the filled scanning store: both jobs yield Task
Units, and the four Keys `ci.build-a`, `ci.build-b`, `scan.lint-svc` and
`scan.sonar-svc` are pairwise distinct. -/
theorem task_keys_nodup_witness :
    (JobCtl.jenkins exampleTwoTargetJob).jobName ≠ (JobCtl.scanning exampleTwoScanJob).jobName ∧
    ((JobCtl.jenkins exampleTwoTargetJob).subTargets exampleScanDeps).Nodup ∧
    ((JobCtl.scanning exampleTwoScanJob).subTargets exampleScanDeps).Nodup ∧
    (('.' ∉ (JobCtl.jenkins exampleTwoTargetJob).jobName.data ∧
        '.' ∉ (JobCtl.scanning exampleTwoScanJob).jobName.data) ∨
      (∀ name ∈ (JobCtl.jenkins exampleTwoTargetJob).subTargets exampleScanDeps
          ++ (JobCtl.scanning exampleTwoScanJob).subTargets exampleScanDeps, '.' ∉ name.data)) ∧
    ((JobCtl.jenkins exampleTwoTargetJob).ToJobs exampleScanDeps 7).map (fun task => task.Key)
      = ["ci.build-a", "ci.build-b"] ∧
    ((JobCtl.scanning exampleTwoScanJob).ToJobs exampleScanDeps 7).map (fun task => task.Key)
      = ["scan.lint-svc", "scan.sonar-svc"] ∧
    (((JobCtl.jenkins exampleTwoTargetJob).ToJobs exampleScanDeps 7
        ++ (JobCtl.scanning exampleTwoScanJob).ToJobs exampleScanDeps 7).map
          (fun task => task.Key)).Nodup :=
  ⟨by decide, by decide, by decide, Or.inl ⟨by decide, by decide⟩, rfl, rfl,
    task_keys_nodup exampleScanDeps 7 (JobCtl.jenkins exampleTwoTargetJob)
      (JobCtl.scanning exampleTwoScanJob) (by decide) (by decide) (by decide)
      (Or.inl ⟨by decide, by decide⟩)⟩

/-! ## `MergeArgs` and `GetRepos` of the scanning variant -/

/-- The inner loop of `MergeArgs` merges with the first override sub-target that
has the name of `scanning`, and leaves `scanning` alone when there is none. -/
theorem mergeArgsScanning_eq (d : Deps) (scanning : ScanningModule)
    (overrides : List ScanningModule) :
    mergeArgsScanning d scanning overrides
      = match overrides.find? (fun o => decide (scanning.Name = o.Name)) with
        | some o => { scanning with Repos := d.mergeRepos scanning.Repos o.Repos }
        | none => scanning := by
  induction overrides with
  | nil => rfl
  | cons o rest ih =>
    by_cases hname : scanning.Name = o.Name
    · simp [mergeArgsScanning, hname]
    · simp [mergeArgsScanning, hname, ih]

/-- What a run of `MergeArgs` on a matching override without error has done:
both payloads decoded and the receiver's payload holds its decoded spec with
every sub-target as the inner loop left it. -/
theorem ScanningJob.MergeArgs_ok (d : Deps) (j : ScanningJob) (args : Job)
    (hname : j.job.Name = args.Name) (hkind : j.job.JobType = args.JobType)
    (h : (j.MergeArgs d args).2 = none) :
    (d.IToiScanning j.job.Spec).2 = none ∧ (d.IToiScanning args.Spec).2 = none ∧
    (j.MergeArgs d args).1.job.Spec
      = .scanning
          { Scannings :=
              (d.IToiScanning j.job.Spec).1.Scannings.map
                (fun scanning => mergeArgsScanning d scanning (d.IToiScanning args.Spec).1.Scannings) } := by
  have hcond : j.job.Name = args.Name ∧ j.job.JobType = args.JobType := ⟨hname, hkind⟩
  cases hdec : (d.IToiScanning j.job.Spec).2 with
  | some err => simp [ScanningJob.MergeArgs, hcond, hdec] at h
  | none =>
    cases hargs : (d.IToiScanning args.Spec).2 with
    | some err => simp [ScanningJob.MergeArgs, hcond, hdec, hargs] at h
    | none =>
      refine ⟨rfl, rfl, ?_⟩
      simp only [ScanningJob.MergeArgs, hcond, hdec, hargs, and_self, if_true]

/-- C11: for an override with the receiver's name and kind, a successful
`MergeArgs` leaves in the payload the receiver's sub-targets in the same number
and order, each with its name and shared-storage info unchanged.  A sub-target
whose name occurs among the override's sub-targets has the repository list
`mergeRepos(own list, list of the first override sub-target of that name)`; a
sub-target with no override of its name keeps its repository list; no override
sub-target is added. -/
theorem scanning_mergeArgs_merges_repos (d : Deps) (j : ScanningJob) (args : Job)
    (hname : j.job.Name = args.Name) (hkind : j.job.JobType = args.JobType)
    (h : (j.MergeArgs d args).2 = none) :
    ∃ spec, (j.MergeArgs d args).1.job.Spec = .scanning spec ∧
      List.Forall₂
        (fun before after =>
          after.Name = before.Name ∧
          after.ShareStorageInfo = before.ShareStorageInfo ∧
          (∀ o, (d.IToiScanning args.Spec).1.Scannings.find? (fun o => before.Name = o.Name) = some o →
            after.Repos = d.mergeRepos before.Repos o.Repos) ∧
          ((∀ o ∈ (d.IToiScanning args.Spec).1.Scannings, o.Name ≠ before.Name) →
            after.Repos = before.Repos))
        (d.IToiScanning j.job.Spec).1.Scannings spec.Scannings := by
  obtain ⟨_, _, hspec⟩ := ScanningJob.MergeArgs_ok d j args hname hkind h
  refine ⟨_, hspec, ?_⟩
  rw [List.forall₂_map_right_iff, List.forall₂_same]
  intro scanning _
  rw [mergeArgsScanning_eq]
  cases hfind : (d.IToiScanning args.Spec).1.Scannings.find?
      (fun o => decide (scanning.Name = o.Name)) with
  | none =>
    refine ⟨rfl, rfl, ?_, fun _ => rfl⟩
    intro o ho
    cases ho
  | some first =>
    refine ⟨rfl, rfl, ?_, ?_⟩
    · intro o ho
      cases ho
      rfl
    · intro hnone
      have hmem := List.mem_of_find?_eq_some hfind
      have hp := List.find?_some hfind
      exact absurd (of_decide_eq_true hp).symm (hnone first hmem)

/-- C11 (witness): the scanning job `scan` with sub-targets `lint-svc` and
`sonar-svc`, and an override of the same name and kind with sub-targets
`sonar-svc` and `extra`. -/
theorem scanning_mergeArgs_merges_repos_witness :
    exampleTwoScanJob.job.Name = exampleScanArgs.Name ∧
    exampleTwoScanJob.job.JobType = exampleScanArgs.JobType ∧
    (exampleTwoScanJob.MergeArgs exampleScanDeps exampleScanArgs).2 = none ∧
    ∃ spec, (exampleTwoScanJob.MergeArgs exampleScanDeps exampleScanArgs).1.job.Spec = .scanning spec ∧
      List.Forall₂
        (fun before after =>
          after.Name = before.Name ∧
          after.ShareStorageInfo = before.ShareStorageInfo ∧
          (∀ o, (exampleScanDeps.IToiScanning exampleScanArgs.Spec).1.Scannings.find?
                (fun o => before.Name = o.Name) = some o →
            after.Repos = exampleScanDeps.mergeRepos before.Repos o.Repos) ∧
          ((∀ o ∈ (exampleScanDeps.IToiScanning exampleScanArgs.Spec).1.Scannings,
              o.Name ≠ before.Name) →
            after.Repos = before.Repos))
        (exampleScanDeps.IToiScanning exampleTwoScanJob.job.Spec).1.Scannings spec.Scannings :=
  ⟨rfl, rfl, rfl,
    scanning_mergeArgs_merges_repos exampleScanDeps exampleTwoScanJob exampleScanArgs rfl rfl rfl⟩

/-! ## `ToJobs` of the scanning variant: what a compiled Task Unit holds -/

/-- The environment of the properties: the entries of lines 166-171, followed by
`BRANCH` when the sub-target declares a repository. -/
theorem scanningProperties_envs (d : Deps) (j : ScanningJob) (taskID : Int)
    (scanning : ScanningModule) (scanningInfo : Scanning) (basicImage : BasicImage)
    (registries : List RegistryNamespace) (timeout : Int)
    (advancedSetting : ScanningAdvancedSetting) :
    (scanningProperties d j taskID scanning scanningInfo basicImage registries timeout
        advancedSetting).Envs
      = scanningEnvs d j taskID scanning scanningInfo
        ++ (match scanning.Repos with
            | [] => []
            | repo0 :: _ => [{ Key := "BRANCH", Value := repo0.Branch }]) := by
  unfold scanningProperties
  cases scanning.Repos <;> simp

/-- The work steps of a sub-target, when the branch on the scan engine ends
without error: the kinds and names of the steps it appends, and the environment
entries it appends. -/
theorem scanningWorkSteps_ok (d : Deps) (scanning : ScanningModule) (scanningInfo : Scanning)
    (jobTaskName repoName branch : String) (steps : List StepTask) (envs : List KeyVal)
    (steps1 : List StepTask) (envs1 : List KeyVal)
    (h : scanningWorkSteps d scanning scanningInfo jobTaskName repoName branch steps envs
      = .ok (steps1, envs1)) :
    steps1.map (fun step => step.StepType)
      = steps.map (fun step => step.StepType) ++ [d.consts.StepShell]
        ++ (if scanningInfo.ScannerType = d.consts.ScanningTypeSonar then
              (if scanningInfo.EnableScanner then [d.consts.StepShell] else [])
              ++ (if scanningInfo.CheckQualityGate then [d.consts.StepSonarCheck] else [])
            else []) ∧
    steps1.map (fun step => step.Name)
      = steps.map (fun step => step.Name) ++ [scanning.Name ++ "-shell"]
        ++ (if scanningInfo.ScannerType = d.consts.ScanningTypeSonar then
              (if scanningInfo.EnableScanner then [scanning.Name ++ "-sonar-shell"] else [])
              ++ (if scanningInfo.CheckQualityGate then [scanning.Name ++ "-sonar-check"] else [])
            else []) ∧
    (scanningInfo.ScannerType ≠ d.consts.ScanningTypeSonar → envs1 = envs) ∧
    (scanningInfo.ScannerType = d.consts.ScanningTypeSonar →
      ∃ sonarInfo, d.SonarGetByID scanningInfo.SonarID = .ok sonarInfo ∧
        envs1 = envs
          ++ [ { Key := "SONAR_LINK"
                 Value := (d.GetSonarAddressWithProjectKey sonarInfo.ServerAddress
                   (d.GetSonarProjectKeyFromConfig scanningInfo.Parameter)).1 },
               { Key := "SONAR_TOKEN", Value := sonarInfo.Token, IsCredential := true },
               { Key := "SONAR_URL", Value := sonarInfo.ServerAddress } ]) := by
  unfold scanningWorkSteps at h
  by_cases hsonar : scanningInfo.ScannerType = d.consts.ScanningTypeSonar
  · simp only [hsonar, if_true] at h
    cases hget : d.SonarGetByID scanningInfo.SonarID with
    | error err => simp [hget] at h
    | ok sonarInfo =>
      simp only [hget, Except.ok.injEq, Prod.mk.injEq] at h
      obtain ⟨hsteps, henvs⟩ := h
      subst hsteps henvs
      refine ⟨?_, ?_, fun hne => absurd hsonar hne, fun _ => ⟨sonarInfo, rfl, by simp⟩⟩
      · cases scanningInfo.EnableScanner <;> cases scanningInfo.CheckQualityGate <;> simp [hsonar]
      · cases scanningInfo.EnableScanner <;> cases scanningInfo.CheckQualityGate <;> simp [hsonar]
  · simp only [hsonar, if_false, Except.ok.injEq, Prod.mk.injEq] at h
    obtain ⟨hsteps, henvs⟩ := h
    subst hsteps henvs
    exact ⟨by simp [hsonar], by simp [hsonar], fun _ => rfl, fun hs => absurd hs hsonar⟩

/-- The first three steps of a sub-target. -/
theorem scanningFirstSteps_kinds (d : Deps) (scanning : ScanningModule)
    (scanningInfo : Scanning) (jobTaskName : String) (envs : List KeyVal) :
    (scanningFirstSteps d scanning scanningInfo jobTaskName envs).map (fun step => step.StepType)
      = [d.consts.StepTools, d.consts.StepGit, d.consts.StepDebugBefore] ∧
    (scanningFirstSteps d scanning scanningInfo jobTaskName envs).map (fun step => step.Name)
      = [scanning.Name ++ "-" ++ "tool-install", scanning.Name ++ "-git",
          scanning.Name ++ "-debug-before"] := by
  constructor <;> rfl

/-- A round of the loop that compiles a Task Unit: the stored definition has an
advanced setting, the work steps ended without error, and the task holds the
properties with the final environment and the steps closed by the
post-execution hook. -/
theorem scanningCompile_ok (d : Deps) (j : ScanningJob) (taskID : Int)
    (scanning : ScanningModule) (scanningInfo : Scanning) (basicImage : BasicImage)
    (registries : List RegistryNamespace) (task : JobTask)
    (h : scanningCompile d j taskID scanning scanningInfo basicImage registries
      = .returned (.ok task)) :
    ∃ advancedSetting steps envs,
      scanningInfo.AdvancedSetting = some advancedSetting ∧
      scanningWorkSteps d scanning scanningInfo
          (d.jobNameFormat (scanning.Name ++ "-" ++ j.job.Name))
          (scanningRepoName scanningInfo) (scanningBranch scanningInfo)
          (scanningFirstSteps d scanning scanningInfo
            (d.jobNameFormat (scanning.Name ++ "-" ++ j.job.Name))
            (scanningProperties d j taskID scanning scanningInfo basicImage registries
              advancedSetting.Timeout advancedSetting).Envs)
          (scanningProperties d j taskID scanning scanningInfo basicImage registries
            advancedSetting.Timeout advancedSetting).Envs
        = .ok (steps, envs) ∧
      task.Timeout = advancedSetting.Timeout ∧
      task.Spec = .freestyle
        { Properties :=
            { scanningProperties d j taskID scanning scanningInfo basicImage registries
                advancedSetting.Timeout advancedSetting with Envs := envs }
          Steps := steps ++
            [{ Name := scanning.Name ++ "-debug-after"
               JobName := d.jobNameFormat (scanning.Name ++ "-" ++ j.job.Name)
               StepType := d.consts.StepDebugAfter
               Spec := .none }] } := by
  unfold scanningCompile at h
  cases hadv : scanningInfo.AdvancedSetting with
  | none => simp [hadv] at h
  | some advancedSetting =>
    simp only [hadv] at h
    cases hwork : scanningWorkSteps d scanning scanningInfo
        (d.jobNameFormat (scanning.Name ++ "-" ++ j.job.Name))
        (scanningRepoName scanningInfo) (scanningBranch scanningInfo)
        (scanningFirstSteps d scanning scanningInfo
          (d.jobNameFormat (scanning.Name ++ "-" ++ j.job.Name))
          (scanningProperties d j taskID scanning scanningInfo basicImage registries
            advancedSetting.Timeout advancedSetting).Envs)
        (scanningProperties d j taskID scanning scanningInfo basicImage registries
          advancedSetting.Timeout advancedSetting).Envs with
    | error err => simp [hwork] at h
    | ok r =>
      obtain ⟨steps, envs⟩ := r
      simp only [hwork, Outcome.returned.injEq, Except.ok.injEq] at h
      refine ⟨advancedSetting, steps, envs, rfl, hwork, ?_, ?_⟩
      · rw [← h]
      · rw [← h]

/-- A round of the loop that compiles a Task Unit found the stored definition,
its base image and the registries. -/
theorem scanningJobTask_ok (d : Deps) (j : ScanningJob) (taskID : Int)
    (scanning : ScanningModule) (task : JobTask)
    (h : scanningJobTask d j taskID scanning = .returned (.ok task)) :
    ∃ scanningInfo basicImage registries,
      d.ScanningFind j.workflow.Project scanning.Name = .ok scanningInfo ∧
      d.BasicImageFind scanningInfo.ImageID = .ok basicImage ∧
      d.ListRegistryNamespaces = .ok registries ∧
      scanningCompile d j taskID scanning scanningInfo basicImage registries
        = .returned (.ok task) := by
  unfold scanningJobTask at h
  cases h1 : d.ScanningFind j.workflow.Project scanning.Name with
  | error err => simp [h1] at h
  | ok scanningInfo =>
    simp only [h1] at h
    cases h2 : d.BasicImageFind scanningInfo.ImageID with
    | error err => simp [h2] at h
    | ok basicImage =>
      simp only [h2] at h
      cases h3 : d.ListRegistryNamespaces with
      | error err => simp [h3] at h
      | ok registries =>
        simp only [h3] at h
        exact ⟨scanningInfo, basicImage, registries, rfl, h2, rfl, h⟩

/-- A run of the loop that ends without error compiled one Task Unit per
sub-target, in order, after the tasks it started with. -/
theorem toJobsLoop_ok (d : Deps) (j : ScanningJob) (taskID : Int)
    (scannings : List ScanningModule) (resp out : List JobTask)
    (h : toJobsLoop d j taskID scannings resp = .returned (out, none)) :
    ∃ tasks, out = resp ++ tasks ∧
      List.Forall₂ (fun scanning task => scanningJobTask d j taskID scanning = .returned (.ok task))
        scannings tasks := by
  induction scannings generalizing resp with
  | nil =>
    simp only [toJobsLoop, Outcome.returned.injEq, Prod.mk.injEq, and_true] at h
    exact ⟨[], by simp [h], List.Forall₂.nil⟩
  | cons scanning rest ih =>
    unfold toJobsLoop at h
    cases hround : scanningJobTask d j taskID scanning with
    | panicked msg => simp [hround] at h
    | returned r =>
      cases r with
      | error err => simp [hround] at h
      | ok jobTask =>
        simp only [hround] at h
        obtain ⟨tasks, hout, hall⟩ := ih _ h
        exact ⟨jobTask :: tasks, by simp [hout], List.Forall₂.cons hround hall⟩

/-- A call of `ToJobs` that returns without error decoded the payload and
compiled one Task Unit per declared sub-target, in declaration order. -/
theorem ScanningJob.ToJobs_ok (d : Deps) (j : ScanningJob) (taskID : Int) (j1 : ScanningJob)
    (resp : List JobTask) (h : j.ToJobs d taskID = .returned (j1, resp, none)) :
    (d.IToiScanning j.job.Spec).2 = none ∧
    List.Forall₂ (fun scanning task => scanningJobTask d j taskID scanning = .returned (.ok task))
      (d.IToiScanning j.job.Spec).1.Scannings resp := by
  unfold ScanningJob.ToJobs at h
  cases hdec : (d.IToiScanning j.job.Spec).2 with
  | some err => simp [hdec] at h
  | none =>
    simp only [hdec] at h
    cases hloop : toJobsLoop d
        { j with spec := some (d.IToiScanning j.job.Spec).1,
                 job := { j.job with Spec := .scanning (d.IToiScanning j.job.Spec).1 } }
        taskID (d.IToiScanning j.job.Spec).1.Scannings [] with
    | panicked msg => simp [hloop] at h
    | returned r =>
      obtain ⟨out, err⟩ := r
      simp only [hloop, Outcome.returned.injEq, Prod.mk.injEq] at h
      obtain ⟨_, hout, herr⟩ := h
      subst hout herr
      obtain ⟨tasks, htasks, hall⟩ := toJobsLoop_ok d _ taskID _ [] out hloop
      rw [List.nil_append] at htasks
      subst htasks
      exact ⟨rfl, hall⟩

theorem tool_install_name (name : String) :
    name ++ "-" ++ "tool-install" = name ++ "-tool-install" := by
  rw [String.append_assoc]
  rfl

/-- The first three steps of a sub-target, with their specs. -/
theorem scanningFirstSteps_eq (d : Deps) (scanning : ScanningModule)
    (scanningInfo : Scanning) (jobTaskName : String) (envs : List KeyVal) :
    scanningFirstSteps d scanning scanningInfo jobTaskName envs
      = [ { Name := scanning.Name ++ "-tool-install"
            JobName := jobTaskName
            StepType := d.consts.StepTools
            Spec := .StepToolInstallSpec
              (scanningInfo.Installs.map
                (fun tool => { Name := tool.Name, Version := tool.Version })) },
          { Name := scanning.Name ++ "-git"
            JobName := jobTaskName
            StepType := d.consts.StepGit
            Spec := .StepGitSpec (d.renderRepos scanning.Repos scanningInfo.Repos envs) },
          { Name := scanning.Name ++ "-debug-before"
            JobName := jobTaskName
            StepType := d.consts.StepDebugBefore
            Spec := .none } ] := by
  simp only [scanningFirstSteps, foldl_append_singleton, tool_install_name, List.nil_append,
    List.cons_append]

/-- The work steps of a sub-target, with their specs: the shell step of the
stored script, and for the code-quality-server engine the shell step of the
scanner invocation and the quality-gate check, each under its flag. -/
theorem scanningWorkSteps_steps (d : Deps) (scanning : ScanningModule) (scanningInfo : Scanning)
    (jobTaskName repoName branch : String) (steps : List StepTask) (envs : List KeyVal)
    (steps1 : List StepTask) (envs1 : List KeyVal)
    (h : scanningWorkSteps d scanning scanningInfo jobTaskName repoName branch steps envs
      = .ok (steps1, envs1)) :
    ∃ work,
      steps1
        = steps
          ++ [ { Name := scanning.Name ++ "-shell"
                 JobName := jobTaskName
                 StepType := d.consts.StepShell
                 Spec := .StepShellSpec
                   (d.Split (d.replaceWrapLine scanningInfo.Script) "\n"
                     ++ d.outputScript scanningInfo.Outputs)
                   (decide (scanningInfo.ScannerType = d.consts.ScanningTypeSonar)) } ]
          ++ work ∧
      (scanningInfo.ScannerType ≠ d.consts.ScanningTypeSonar → work = []) ∧
      (scanningInfo.ScannerType = d.consts.ScanningTypeSonar →
        ∃ sonarInfo, d.SonarGetByID scanningInfo.SonarID = .ok sonarInfo ∧
          work
            = (if scanningInfo.EnableScanner then
                [ { Name := scanning.Name ++ "-sonar-shell"
                    JobName := jobTaskName
                    StepType := d.consts.StepShell
                    Spec := .StepShellSpec
                      (d.Split
                        (d.replaceWrapLine
                          ("set -e\ncd " ++ repoName
                            ++ "\ncat > sonar-project.properties << EOF\n"
                            ++ d.ReplaceAll
                                ("sonar.login=" ++ sonarInfo.Token ++ "\nsonar.host.url="
                                  ++ sonarInfo.ServerAddress ++ "\n" ++ scanningInfo.Parameter)
                                "$branch" branch
                            ++ "\nEOF\nsonar-scanner"))
                        "\n")
                      true } ]
               else [])
              ++ (if scanningInfo.CheckQualityGate then
                    [ { Name := scanning.Name ++ "-sonar-check"
                        JobName := jobTaskName
                        StepType := d.consts.StepSonarCheck
                        Spec := .StepSonarCheckSpec scanningInfo.Parameter repoName
                          sonarInfo.Token sonarInfo.ServerAddress } ]
                  else [])) := by
  unfold scanningWorkSteps at h
  by_cases hsonar : scanningInfo.ScannerType = d.consts.ScanningTypeSonar
  · simp only [hsonar, if_true] at h
    cases hget : d.SonarGetByID scanningInfo.SonarID with
    | error err => simp [hget] at h
    | ok sonarInfo =>
      simp only [hget, Except.ok.injEq, Prod.mk.injEq] at h
      obtain ⟨hsteps, _⟩ := h
      subst hsteps
      refine ⟨_, ?_, fun hne => absurd hsonar hne, fun _ => ⟨sonarInfo, rfl, rfl⟩⟩
      cases scanningInfo.EnableScanner <;> cases scanningInfo.CheckQualityGate <;>
        simp [hsonar, String.append_assoc]
  · simp only [hsonar, if_false, Except.ok.injEq, Prod.mk.injEq] at h
    obtain ⟨hsteps, _⟩ := h
    subst hsteps
    exact ⟨[], by simp [hsonar], fun _ => rfl, fun hs => absurd hs hsonar⟩

/-- C12: for every Task Unit a successful scanning `ToJobs` compiles, the steps
are, in order: tool installation (of the stored tool list), source checkout (of
the rendered repositories), pre-execution hook, the shell step `-shell` that runs
the stored script followed by the output-capture lines; then, for the
code-quality-server engine only, a second shell step `-sonar-shell` that runs the
generated scanner invocation if server-side scanning is enabled, and a
quality-gate-check step `-sonar-check` carrying the scan parameters, checkout
path, server token and URL if quality-gate checking is enabled; then the
post-execution hook.  The sequences of kinds and of names follow, and a
sub-target of another engine has exactly 5 steps. -/
theorem scanning_toJobs_step_order (d : Deps) (j : ScanningJob) (taskID : Int)
    (j1 : ScanningJob) (resp : List JobTask)
    (h : j.ToJobs d taskID = .returned (j1, resp, none)) :
    List.Forall₂
      (fun scanning task =>
        ∃ scanningInfo spec,
          d.ScanningFind j.workflow.Project scanning.Name = .ok scanningInfo ∧
          task.Spec = .freestyle spec ∧
          spec.Steps.map (fun step => step.StepType)
            = [d.consts.StepTools, d.consts.StepGit, d.consts.StepDebugBefore, d.consts.StepShell]
              ++ (if scanningInfo.ScannerType = d.consts.ScanningTypeSonar then
                    (if scanningInfo.EnableScanner then [d.consts.StepShell] else [])
                    ++ (if scanningInfo.CheckQualityGate then [d.consts.StepSonarCheck] else [])
                  else [])
              ++ [d.consts.StepDebugAfter] ∧
          spec.Steps.map (fun step => step.Name)
            = [scanning.Name ++ "-tool-install", scanning.Name ++ "-git",
                scanning.Name ++ "-debug-before", scanning.Name ++ "-shell"]
              ++ (if scanningInfo.ScannerType = d.consts.ScanningTypeSonar then
                    (if scanningInfo.EnableScanner then [scanning.Name ++ "-sonar-shell"] else [])
                    ++ (if scanningInfo.CheckQualityGate then [scanning.Name ++ "-sonar-check"]
                        else [])
                  else [])
              ++ [scanning.Name ++ "-debug-after"] ∧
          (scanningInfo.ScannerType ≠ d.consts.ScanningTypeSonar → spec.Steps.length = 5) ∧
          ∃ work,
            spec.Steps
              = [ { Name := scanning.Name ++ "-tool-install"
                    JobName := d.jobNameFormat (scanning.Name ++ "-" ++ j.job.Name)
                    StepType := d.consts.StepTools
                    Spec := .StepToolInstallSpec
                      (scanningInfo.Installs.map
                        (fun tool => { Name := tool.Name, Version := tool.Version })) },
                  { Name := scanning.Name ++ "-git"
                    JobName := d.jobNameFormat (scanning.Name ++ "-" ++ j.job.Name)
                    StepType := d.consts.StepGit
                    Spec := .StepGitSpec
                      (d.renderRepos scanning.Repos scanningInfo.Repos
                        (d.PrepareDefaultWorkflowTaskEnvs j.workflow.Project j.workflow.Name
                            j.workflow.DisplayName "" taskID
                          ++ d.getReposVariables scanning.Repos
                          ++ [{ Key := "SCANNING_NAME", Value := scanning.Name, IsCredential := false }]
                          ++ scanningInfo.Envs
                          ++ (match scanning.Repos with
                              | [] => []
                              | repo0 :: _ =>
                                [{ Key := "BRANCH", Value := repo0.Branch, IsCredential := false }]))) },
                  { Name := scanning.Name ++ "-debug-before"
                    JobName := d.jobNameFormat (scanning.Name ++ "-" ++ j.job.Name)
                    StepType := d.consts.StepDebugBefore
                    Spec := .none },
                  { Name := scanning.Name ++ "-shell"
                    JobName := d.jobNameFormat (scanning.Name ++ "-" ++ j.job.Name)
                    StepType := d.consts.StepShell
                    Spec := .StepShellSpec
                      (d.Split (d.replaceWrapLine scanningInfo.Script) "\n"
                        ++ d.outputScript scanningInfo.Outputs)
                      (decide (scanningInfo.ScannerType = d.consts.ScanningTypeSonar)) } ]
                ++ work
                ++ [ { Name := scanning.Name ++ "-debug-after"
                       JobName := d.jobNameFormat (scanning.Name ++ "-" ++ j.job.Name)
                       StepType := d.consts.StepDebugAfter
                       Spec := .none } ] ∧
            (scanningInfo.ScannerType ≠ d.consts.ScanningTypeSonar → work = []) ∧
            (scanningInfo.ScannerType = d.consts.ScanningTypeSonar →
              ∃ sonarInfo repoName branch,
                d.SonarGetByID scanningInfo.SonarID = .ok sonarInfo ∧
                repoName
                  = (match scanningInfo.Repos with
                     | [] => ""
                     | repo0 :: _ =>
                       if repo0.CheckoutPath ≠ "" then repo0.CheckoutPath else repo0.RepoName) ∧
                branch
                  = (match scanningInfo.Repos with
                     | [] => ""
                     | repo0 :: _ => repo0.Branch) ∧
                work
                  = (if scanningInfo.EnableScanner then
                      [ { Name := scanning.Name ++ "-sonar-shell"
                          JobName := d.jobNameFormat (scanning.Name ++ "-" ++ j.job.Name)
                          StepType := d.consts.StepShell
                          Spec := .StepShellSpec
                            (d.Split
                              (d.replaceWrapLine
                                ("set -e\ncd " ++ repoName
                                  ++ "\ncat > sonar-project.properties << EOF\n"
                                  ++ d.ReplaceAll
                                      ("sonar.login=" ++ sonarInfo.Token ++ "\nsonar.host.url="
                                        ++ sonarInfo.ServerAddress ++ "\n" ++ scanningInfo.Parameter)
                                      "$branch" branch
                                  ++ "\nEOF\nsonar-scanner"))
                              "\n")
                            true } ]
                     else [])
                    ++ (if scanningInfo.CheckQualityGate then
                          [ { Name := scanning.Name ++ "-sonar-check"
                              JobName := d.jobNameFormat (scanning.Name ++ "-" ++ j.job.Name)
                              StepType := d.consts.StepSonarCheck
                              Spec := .StepSonarCheckSpec scanningInfo.Parameter repoName
                                sonarInfo.Token sonarInfo.ServerAddress } ]
                        else [])))
      (d.IToiScanning j.job.Spec).1.Scannings resp := by
  refine (ScanningJob.ToJobs_ok d j taskID j1 resp h).2.imp ?_
  intro scanning task htask
  obtain ⟨scanningInfo, basicImage, registries, hfind, _, _, hcompile⟩ :=
    scanningJobTask_ok d j taskID scanning task htask
  obtain ⟨advancedSetting, steps, envs, _, hwork, _, hspec⟩ :=
    scanningCompile_ok d j taskID scanning scanningInfo basicImage registries task hcompile
  obtain ⟨hkinds, hnames, _, _⟩ := scanningWorkSteps_ok _ _ _ _ _ _ _ _ _ _ hwork
  obtain ⟨work, hsteps, hplain, hsonar⟩ := scanningWorkSteps_steps _ _ _ _ _ _ _ _ _ _ hwork
  obtain ⟨hfirstKinds, hfirstNames⟩ := scanningFirstSteps_kinds d scanning scanningInfo
    (d.jobNameFormat (scanning.Name ++ "-" ++ j.job.Name))
    (scanningProperties d j taskID scanning scanningInfo basicImage registries
      advancedSetting.Timeout advancedSetting).Envs
  have hbase : (scanningProperties d j taskID scanning scanningInfo basicImage registries
        advancedSetting.Timeout advancedSetting).Envs
      = d.PrepareDefaultWorkflowTaskEnvs j.workflow.Project j.workflow.Name
          j.workflow.DisplayName "" taskID
        ++ d.getReposVariables scanning.Repos
        ++ [{ Key := "SCANNING_NAME", Value := scanning.Name, IsCredential := false }]
        ++ scanningInfo.Envs
        ++ (match scanning.Repos with
            | [] => []
            | repo0 :: _ => [{ Key := "BRANCH", Value := repo0.Branch, IsCredential := false }]) := by
    rw [scanningProperties_envs]
    simp [scanningEnvs, getScanningJobVariables]
  rw [hfirstKinds] at hkinds
  rw [hfirstNames] at hnames
  rw [scanningFirstSteps_eq, hbase] at hsteps
  refine ⟨scanningInfo, _, hfind, hspec, ?_, ?_, ?_, work, ?_, hplain, ?_⟩
  rotate_right
  · intro hengine
    obtain ⟨sonarInfo, hget, hworkEq⟩ := hsonar hengine
    exact ⟨sonarInfo, scanningRepoName scanningInfo, scanningBranch scanningInfo, hget,
      by unfold scanningRepoName; cases scanningInfo.Repos <;> rfl,
      by unfold scanningBranch; cases scanningInfo.Repos <;> rfl, hworkEq⟩
  · simp only [List.map_append, hkinds, List.map_cons, List.map_nil]
    simp
  · simp only [List.map_append, hnames, List.map_cons, List.map_nil]
    simp [String.append_assoc]
  · intro hne
    have hlen := congrArg List.length hkinds
    simp only [List.length_map, if_neg hne, List.length_append, List.length_cons,
      List.length_nil] at hlen
    simp only [List.length_append, List.length_cons, List.length_nil, hlen]
  · show steps ++ _ = _
    rw [hsteps]
    simp

/-- C12 (witness): the scanning job `scan` with the generic-engine sub-target
`lint-svc` and the code-quality-server sub-target `sonar-svc`, whose stored
definition enables server-side scanning and quality-gate checking. -/
theorem scanning_toJobs_step_order_witness :
    exampleTwoScanJob.ToJobs exampleScanDeps 7
      = .returned (exampleTwoScanJobDecoded, exampleTwoScanTasks, none) ∧
    List.Forall₂
      (fun scanning task =>
        ∃ scanningInfo spec,
          exampleScanDeps.ScanningFind exampleTwoScanJob.workflow.Project scanning.Name = .ok scanningInfo ∧
          task.Spec = .freestyle spec ∧
          spec.Steps.map (fun step => step.StepType)
            = [exampleScanDeps.consts.StepTools, exampleScanDeps.consts.StepGit, exampleScanDeps.consts.StepDebugBefore, exampleScanDeps.consts.StepShell]
              ++ (if scanningInfo.ScannerType = exampleScanDeps.consts.ScanningTypeSonar then
                    (if scanningInfo.EnableScanner then [exampleScanDeps.consts.StepShell] else [])
                    ++ (if scanningInfo.CheckQualityGate then [exampleScanDeps.consts.StepSonarCheck] else [])
                  else [])
              ++ [exampleScanDeps.consts.StepDebugAfter] ∧
          spec.Steps.map (fun step => step.Name)
            = [scanning.Name ++ "-tool-install", scanning.Name ++ "-git",
                scanning.Name ++ "-debug-before", scanning.Name ++ "-shell"]
              ++ (if scanningInfo.ScannerType = exampleScanDeps.consts.ScanningTypeSonar then
                    (if scanningInfo.EnableScanner then [scanning.Name ++ "-sonar-shell"] else [])
                    ++ (if scanningInfo.CheckQualityGate then [scanning.Name ++ "-sonar-check"]
                        else [])
                  else [])
              ++ [scanning.Name ++ "-debug-after"] ∧
          (scanningInfo.ScannerType ≠ exampleScanDeps.consts.ScanningTypeSonar → spec.Steps.length = 5) ∧
          ∃ work,
            spec.Steps
              = [ { Name := scanning.Name ++ "-tool-install"
                    JobName := exampleScanDeps.jobNameFormat (scanning.Name ++ "-" ++ exampleTwoScanJob.job.Name)
                    StepType := exampleScanDeps.consts.StepTools
                    Spec := .StepToolInstallSpec
                      (scanningInfo.Installs.map
                        (fun tool => { Name := tool.Name, Version := tool.Version })) },
                  { Name := scanning.Name ++ "-git"
                    JobName := exampleScanDeps.jobNameFormat (scanning.Name ++ "-" ++ exampleTwoScanJob.job.Name)
                    StepType := exampleScanDeps.consts.StepGit
                    Spec := .StepGitSpec
                      (exampleScanDeps.renderRepos scanning.Repos scanningInfo.Repos
                        (exampleScanDeps.PrepareDefaultWorkflowTaskEnvs exampleTwoScanJob.workflow.Project exampleTwoScanJob.workflow.Name
                            exampleTwoScanJob.workflow.DisplayName "" 7
                          ++ exampleScanDeps.getReposVariables scanning.Repos
                          ++ [{ Key := "SCANNING_NAME", Value := scanning.Name, IsCredential := false }]
                          ++ scanningInfo.Envs
                          ++ (match scanning.Repos with
                              | [] => []
                              | repo0 :: _ =>
                                [{ Key := "BRANCH", Value := repo0.Branch, IsCredential := false }]))) },
                  { Name := scanning.Name ++ "-debug-before"
                    JobName := exampleScanDeps.jobNameFormat (scanning.Name ++ "-" ++ exampleTwoScanJob.job.Name)
                    StepType := exampleScanDeps.consts.StepDebugBefore
                    Spec := .none },
                  { Name := scanning.Name ++ "-shell"
                    JobName := exampleScanDeps.jobNameFormat (scanning.Name ++ "-" ++ exampleTwoScanJob.job.Name)
                    StepType := exampleScanDeps.consts.StepShell
                    Spec := .StepShellSpec
                      (exampleScanDeps.Split (exampleScanDeps.replaceWrapLine scanningInfo.Script) "\n"
                        ++ exampleScanDeps.outputScript scanningInfo.Outputs)
                      (decide (scanningInfo.ScannerType = exampleScanDeps.consts.ScanningTypeSonar)) } ]
                ++ work
                ++ [ { Name := scanning.Name ++ "-debug-after"
                       JobName := exampleScanDeps.jobNameFormat (scanning.Name ++ "-" ++ exampleTwoScanJob.job.Name)
                       StepType := exampleScanDeps.consts.StepDebugAfter
                       Spec := .none } ] ∧
            (scanningInfo.ScannerType ≠ exampleScanDeps.consts.ScanningTypeSonar → work = []) ∧
            (scanningInfo.ScannerType = exampleScanDeps.consts.ScanningTypeSonar →
              ∃ sonarInfo repoName branch,
                exampleScanDeps.SonarGetByID scanningInfo.SonarID = .ok sonarInfo ∧
                repoName
                  = (match scanningInfo.Repos with
                     | [] => ""
                     | repo0 :: _ =>
                       if repo0.CheckoutPath ≠ "" then repo0.CheckoutPath else repo0.RepoName) ∧
                branch
                  = (match scanningInfo.Repos with
                     | [] => ""
                     | repo0 :: _ => repo0.Branch) ∧
                work
                  = (if scanningInfo.EnableScanner then
                      [ { Name := scanning.Name ++ "-sonar-shell"
                          JobName := exampleScanDeps.jobNameFormat (scanning.Name ++ "-" ++ exampleTwoScanJob.job.Name)
                          StepType := exampleScanDeps.consts.StepShell
                          Spec := .StepShellSpec
                            (exampleScanDeps.Split
                              (exampleScanDeps.replaceWrapLine
                                ("set -e\ncd " ++ repoName
                                  ++ "\ncat > sonar-project.properties << EOF\n"
                                  ++ exampleScanDeps.ReplaceAll
                                      ("sonar.login=" ++ sonarInfo.Token ++ "\nsonar.host.url="
                                        ++ sonarInfo.ServerAddress ++ "\n" ++ scanningInfo.Parameter)
                                      "$branch" branch
                                  ++ "\nEOF\nsonar-scanner"))
                              "\n")
                            true } ]
                     else [])
                    ++ (if scanningInfo.CheckQualityGate then
                          [ { Name := scanning.Name ++ "-sonar-check"
                              JobName := exampleScanDeps.jobNameFormat (scanning.Name ++ "-" ++ exampleTwoScanJob.job.Name)
                              StepType := exampleScanDeps.consts.StepSonarCheck
                              Spec := .StepSonarCheckSpec scanningInfo.Parameter repoName
                                sonarInfo.Token sonarInfo.ServerAddress } ]
                        else [])))
      (exampleScanDeps.IToiScanning exampleTwoScanJob.job.Spec).1.Scannings exampleTwoScanTasks :=
  ⟨rfl, scanning_toJobs_step_order exampleScanDeps exampleTwoScanJob 7 exampleTwoScanJobDecoded
    exampleTwoScanTasks rfl⟩

/-- C13: for every Task Unit a successful scanning `ToJobs` compiles, the
environment entries are, in this order: the workflow-basic variables, the
repository-derived variables of the declared repositories, `SCANNING_NAME` with
the sub-target's name, the stored definition's own entries, then `BRANCH` with
the first declared repository's branch exactly when a repository is declared;
for the code-quality-server engine these are followed by `SONAR_LINK`,
`SONAR_TOKEN` flagged as a credential and `SONAR_URL` not flagged, and for
another engine by nothing.  The list is a concatenation: no entry is removed or
rewritten. -/
theorem scanning_toJobs_env_order (d : Deps) (j : ScanningJob) (taskID : Int)
    (j1 : ScanningJob) (resp : List JobTask)
    (h : j.ToJobs d taskID = .returned (j1, resp, none)) :
    List.Forall₂
      (fun scanning task =>
        ∃ scanningInfo spec tail,
          d.ScanningFind j.workflow.Project scanning.Name = .ok scanningInfo ∧
          task.Spec = .freestyle spec ∧
          spec.Properties.Envs
            = d.PrepareDefaultWorkflowTaskEnvs j.workflow.Project j.workflow.Name
                j.workflow.DisplayName "" taskID
              ++ d.getReposVariables scanning.Repos
              ++ [{ Key := "SCANNING_NAME", Value := scanning.Name, IsCredential := false }]
              ++ scanningInfo.Envs
              ++ (match scanning.Repos with
                  | [] => []
                  | repo0 :: _ => [{ Key := "BRANCH", Value := repo0.Branch, IsCredential := false }])
              ++ tail ∧
          (scanningInfo.ScannerType ≠ d.consts.ScanningTypeSonar → tail = []) ∧
          (scanningInfo.ScannerType = d.consts.ScanningTypeSonar →
            ∃ sonarInfo, d.SonarGetByID scanningInfo.SonarID = .ok sonarInfo ∧
              tail =
                [ { Key := "SONAR_LINK"
                    Value := (d.GetSonarAddressWithProjectKey sonarInfo.ServerAddress
                      (d.GetSonarProjectKeyFromConfig scanningInfo.Parameter)).1
                    IsCredential := false },
                  { Key := "SONAR_TOKEN", Value := sonarInfo.Token, IsCredential := true },
                  { Key := "SONAR_URL", Value := sonarInfo.ServerAddress, IsCredential := false } ]))
      (d.IToiScanning j.job.Spec).1.Scannings resp := by
  refine (ScanningJob.ToJobs_ok d j taskID j1 resp h).2.imp ?_
  intro scanning task htask
  obtain ⟨scanningInfo, basicImage, registries, hfind, _, _, hcompile⟩ :=
    scanningJobTask_ok d j taskID scanning task htask
  obtain ⟨advancedSetting, steps, envs, _, hwork, _, hspec⟩ :=
    scanningCompile_ok d j taskID scanning scanningInfo basicImage registries task hcompile
  obtain ⟨_, _, hplain, hsonar⟩ := scanningWorkSteps_ok _ _ _ _ _ _ _ _ _ _ hwork
  have hbase : (scanningProperties d j taskID scanning scanningInfo basicImage registries
        advancedSetting.Timeout advancedSetting).Envs
      = d.PrepareDefaultWorkflowTaskEnvs j.workflow.Project j.workflow.Name
          j.workflow.DisplayName "" taskID
        ++ d.getReposVariables scanning.Repos
        ++ [{ Key := "SCANNING_NAME", Value := scanning.Name, IsCredential := false }]
        ++ scanningInfo.Envs
        ++ (match scanning.Repos with
            | [] => []
            | repo0 :: _ => [{ Key := "BRANCH", Value := repo0.Branch, IsCredential := false }]) := by
    rw [scanningProperties_envs]
    simp [scanningEnvs, getScanningJobVariables]
  by_cases hengine : scanningInfo.ScannerType = d.consts.ScanningTypeSonar
  · obtain ⟨sonarInfo, hget, henvs⟩ := hsonar hengine
    refine ⟨scanningInfo, _, _, hfind, hspec, ?_, fun hne => absurd hengine hne,
      fun _ => ⟨sonarInfo, hget, rfl⟩⟩
    show envs = _
    rw [henvs, hbase]
  · refine ⟨scanningInfo, _, [], hfind, hspec, ?_, fun _ => rfl, fun hs => absurd hs hengine⟩
    show envs = _
    rw [hplain hengine, hbase, List.append_nil]

/-- C13 (witness): the scanning job `scan` with the sub-targets `lint-svc` and
`sonar-svc`, each declaring one repository. -/
theorem scanning_toJobs_env_order_witness :
    exampleTwoScanJob.ToJobs exampleScanDeps 7
      = .returned (exampleTwoScanJobDecoded, exampleTwoScanTasks, none) ∧
    List.Forall₂
      (fun scanning task =>
        ∃ scanningInfo spec tail,
          exampleScanDeps.ScanningFind exampleTwoScanJob.workflow.Project scanning.Name
            = .ok scanningInfo ∧
          task.Spec = .freestyle spec ∧
          spec.Properties.Envs
            = exampleScanDeps.PrepareDefaultWorkflowTaskEnvs exampleTwoScanJob.workflow.Project
                exampleTwoScanJob.workflow.Name exampleTwoScanJob.workflow.DisplayName "" 7
              ++ exampleScanDeps.getReposVariables scanning.Repos
              ++ [{ Key := "SCANNING_NAME", Value := scanning.Name, IsCredential := false }]
              ++ scanningInfo.Envs
              ++ (match scanning.Repos with
                  | [] => []
                  | repo0 :: _ => [{ Key := "BRANCH", Value := repo0.Branch, IsCredential := false }])
              ++ tail ∧
          (scanningInfo.ScannerType ≠ exampleScanDeps.consts.ScanningTypeSonar → tail = []) ∧
          (scanningInfo.ScannerType = exampleScanDeps.consts.ScanningTypeSonar →
            ∃ sonarInfo, exampleScanDeps.SonarGetByID scanningInfo.SonarID = .ok sonarInfo ∧
              tail =
                [ { Key := "SONAR_LINK"
                    Value := (exampleScanDeps.GetSonarAddressWithProjectKey sonarInfo.ServerAddress
                      (exampleScanDeps.GetSonarProjectKeyFromConfig scanningInfo.Parameter)).1
                    IsCredential := false },
                  { Key := "SONAR_TOKEN", Value := sonarInfo.Token, IsCredential := true },
                  { Key := "SONAR_URL", Value := sonarInfo.ServerAddress, IsCredential := false } ]))
      (exampleScanDeps.IToiScanning exampleTwoScanJob.job.Spec).1.Scannings exampleTwoScanTasks :=
  ⟨rfl, scanning_toJobs_env_order exampleScanDeps exampleTwoScanJob 7 exampleTwoScanJobDecoded
    exampleTwoScanTasks rfl⟩

/-- The loop of `GetRepos` appends, to the list it starts with, the merged lists
of the sub-targets whose stored definition is found. -/
theorem getRepos_fold (d : Deps) (project : String) (scannings : List ScanningModule)
    (init : List Repository) :
    scannings.foldl
        (fun resp scanning =>
          match d.ScanningFind project scanning.Name with
          | .error _ => resp
          | .ok scanningInfo => resp ++ d.mergeRepos scanningInfo.Repos scanning.Repos)
        init
      = init ++ (scannings.filterMap (fun scanning =>
          match d.ScanningFind project scanning.Name with
          | .ok scanningInfo => some (d.mergeRepos scanningInfo.Repos scanning.Repos)
          | .error _ => none)).flatten := by
  induction scannings generalizing init with
  | nil => simp
  | cons scanning rest ih =>
    rw [List.foldl_cons, ih]
    cases hfind : d.ScanningFind project scanning.Name with
    | error err => simp [List.filterMap_cons, hfind]
    | ok scanningInfo => simp [List.filterMap_cons, hfind]

/-- C14: when the payload decodes, `GetRepos` returns no error, whether or not
stored scan definitions are missing, and its result is the concatenation, in
sub-target declaration order, of `mergeRepos(stored list, declared list)` over
exactly the sub-targets whose stored definition is found. -/
theorem scanning_getRepos_skips_missing (d : Deps) (j : ScanningJob)
    (hdec : (d.IToiScanning j.job.Spec).2 = none) :
    (j.GetRepos d).2.2 = none ∧
    (j.GetRepos d).2.1
      = ((d.IToiScanning j.job.Spec).1.Scannings.filterMap (fun scanning =>
          match d.ScanningFind j.workflow.Project scanning.Name with
          | .ok scanningInfo => some (d.mergeRepos scanningInfo.Repos scanning.Repos)
          | .error _ => none)).flatten := by
  simp only [ScanningJob.GetRepos, hdec, getRepos_fold, List.nil_append, and_self]

/-- C14 (witness): the scanning job `scan` with the sub-targets `lint-svc`,
`gone` (no stored definition) and `sonar-svc`. -/
theorem scanning_getRepos_skips_missing_witness :
    (exampleScanDeps.IToiScanning exampleGoneScanJob.job.Spec).2 = none ∧
    (exampleGoneScanJob.GetRepos exampleScanDeps).2.2 = none ∧
    (exampleGoneScanJob.GetRepos exampleScanDeps).2.1
      = ((exampleScanDeps.IToiScanning exampleGoneScanJob.job.Spec).1.Scannings.filterMap
          (fun scanning =>
            match exampleScanDeps.ScanningFind exampleGoneScanJob.workflow.Project scanning.Name with
            | .ok scanningInfo =>
              some (exampleScanDeps.mergeRepos scanningInfo.Repos scanning.Repos)
            | .error _ => none)).flatten :=
  ⟨rfl, scanning_getRepos_skips_missing exampleScanDeps exampleGoneScanJob rfl⟩

/-! ## `LintJob` -/

/-- `LintJob` of an external-trigger job whose payload decodes reports an error
when the integration is not in the store, and never touches the Job. -/
theorem JenkinsJob.LintJob_missing_integration (d : Deps) (j : JenkinsJob) (err : GoError)
    (hget : d.JenkinsIntegrationGet (d.IToiYamlJenkins j.job.Spec).1.ID = .error err) :
    (j.LintJob d).2 ≠ none ∧ (j.LintJob d).1.job = j.job := by
  cases hdec : (d.IToiYamlJenkins j.job.Spec).2 with
  | some e => simp [JenkinsJob.LintJob, hdec]
  | none => simp [JenkinsJob.LintJob, hdec, hget]

/-- `LintJob` of a scanning job looks nothing up: it returns `nil` and leaves the
receiver as it is. -/
theorem ScanningJob.LintJob_never_fails (d : Deps) (j : ScanningJob) :
    j.LintJob d = (j, none) := rfl

/-- C15 (the code at the failing input): the scanning job `scan` has the
sub-target `sonar-lost`, whose stored definition uses the code-quality-server
engine with the quality-server integration `sonar-9`, which is not in the store;
`LintJob` returns no error, where the claim asks for one.  (For the
external-trigger job `ci` with the unknown integration `ci-9`, `LintJob` does
return an error and leaves the payload unchanged.) -/
theorem scanning_lintJob_accepts_missing_integration :
    exampleScanDeps.ScanningFind exampleLostSonarJob.workflow.Project "sonar-lost"
      = .ok exampleLostSonarScanning ∧
    exampleLostSonarScanning.ScannerType = exampleScanDeps.consts.ScanningTypeSonar ∧
    exampleScanDeps.SonarGetByID exampleLostSonarScanning.SonarID
      = .error "no documents in result" ∧
    exampleLostSonarJob.LintJob exampleScanDeps = (exampleLostSonarJob, none) ∧
    (exampleLostIntegrationJob.LintJob exampleScanDeps).2
      = some "not found Jenkins in mongo, err: no documents in result" ∧
    (exampleLostIntegrationJob.LintJob exampleScanDeps).1.job = exampleLostIntegrationJob.job := by
  refine ⟨rfl, rfl, rfl, rfl, rfl, rfl⟩

/-! ## `ToJobs` of the scanning variant: when it fails -/

theorem scanningWorkSteps_cases (d : Deps) (scanning : ScanningModule) (scanningInfo : Scanning)
    (jobTaskName repoName branch : String) (steps : List StepTask) (envs : List KeyVal) :
    (∃ r, scanningWorkSteps d scanning scanningInfo jobTaskName repoName branch steps envs = .ok r ∧
      ¬ (scanningInfo.ScannerType = d.consts.ScanningTypeSonar ∧
        ∃ err, d.SonarGetByID scanningInfo.SonarID = .error err)) ∨
    (∃ e, scanningWorkSteps d scanning scanningInfo jobTaskName repoName branch steps envs
        = .error e ∧
      scanningInfo.ScannerType = d.consts.ScanningTypeSonar ∧
        ∃ err, d.SonarGetByID scanningInfo.SonarID = .error err) := by
  unfold scanningWorkSteps
  by_cases hsonar : scanningInfo.ScannerType = d.consts.ScanningTypeSonar
  · cases hget : d.SonarGetByID scanningInfo.SonarID with
    | error err =>
      right
      exact ⟨_, by simp only [hsonar, if_true]; rfl, hsonar, err, rfl⟩
    | ok sonarInfo =>
      left
      refine ⟨_, by simp only [hsonar, if_true]; rfl, ?_⟩
      rintro ⟨_, err, herr⟩
      cases herr
  · left
    exact ⟨_, by simp only [hsonar, if_false]; rfl, fun hs => hsonar hs.1⟩

theorem scanningCompile_cases (d : Deps) (j : ScanningJob) (taskID : Int)
    (scanning : ScanningModule) (scanningInfo : Scanning) (basicImage : BasicImage)
    (registries : List RegistryNamespace) (hadv : scanningInfo.AdvancedSetting ≠ none) :
    (∃ task, scanningCompile d j taskID scanning scanningInfo basicImage registries
        = .returned (.ok task) ∧
      ¬ (scanningInfo.ScannerType = d.consts.ScanningTypeSonar ∧
        ∃ err, d.SonarGetByID scanningInfo.SonarID = .error err)) ∨
    (∃ e, scanningCompile d j taskID scanning scanningInfo basicImage registries
        = .returned (.error e) ∧
      scanningInfo.ScannerType = d.consts.ScanningTypeSonar ∧
        ∃ err, d.SonarGetByID scanningInfo.SonarID = .error err) := by
  cases hsetting : scanningInfo.AdvancedSetting with
  | none => exact absurd hsetting hadv
  | some advancedSetting =>
    rcases scanningWorkSteps_cases d scanning scanningInfo
        (d.jobNameFormat (scanning.Name ++ "-" ++ j.job.Name))
        (scanningRepoName scanningInfo) (scanningBranch scanningInfo)
        (scanningFirstSteps d scanning scanningInfo
          (d.jobNameFormat (scanning.Name ++ "-" ++ j.job.Name))
          (scanningProperties d j taskID scanning scanningInfo basicImage registries
            advancedSetting.Timeout advancedSetting).Envs)
        (scanningProperties d j taskID scanning scanningInfo basicImage registries
          advancedSetting.Timeout advancedSetting).Envs with ⟨r, hwork, hno⟩ | ⟨e, hwork, hyes⟩
    · left
      obtain ⟨steps, envs⟩ := r
      exact ⟨_, by simp only [scanningCompile, hsetting, hwork]; rfl, hno⟩
    · right
      refine ⟨e, ?_, hyes⟩
      simp only [scanningCompile, hsetting, hwork]

/-- One round of the loop, for a sub-target whose stored definition, if found,
has an advanced setting: it compiles a Task Unit when the sub-target resolves,
and returns an error when it does not. -/
theorem scanningJobTask_cases (d : Deps) (j : ScanningJob) (taskID : Int)
    (scanning : ScanningModule)
    (hadv : ∀ scanningInfo, d.ScanningFind j.workflow.Project scanning.Name = .ok scanningInfo →
      scanningInfo.AdvancedSetting ≠ none) :
    (∃ task, scanningJobTask d j taskID scanning = .returned (.ok task) ∧
      ¬ Unresolved d j.workflow.Project scanning) ∨
    (∃ e, scanningJobTask d j taskID scanning = .returned (.error e) ∧
      Unresolved d j.workflow.Project scanning) := by
  cases h1 : d.ScanningFind j.workflow.Project scanning.Name with
  | error err =>
    exact Or.inr ⟨"find scanning: " ++ scanning.Name ++ " error: " ++ err,
      by simp only [scanningJobTask, h1], Or.inl ⟨err, h1⟩⟩
  | ok scanningInfo =>
    cases h2 : d.BasicImageFind scanningInfo.ImageID with
    | error err =>
      exact Or.inr ⟨"find basic image: " ++ scanningInfo.ImageID ++ " error: " ++ err,
        by simp only [scanningJobTask, h1, h2], Or.inr (Or.inl ⟨scanningInfo, err, h1, h2⟩)⟩
    | ok basicImage =>
      cases h3 : d.ListRegistryNamespaces with
      | error err =>
        exact Or.inr ⟨"list registries error: " ++ err,
          by simp only [scanningJobTask, h1, h2, h3], Or.inr (Or.inr (Or.inl ⟨err, h3⟩))⟩
      | ok registries =>
        rcases scanningCompile_cases d j taskID scanning scanningInfo basicImage registries
            (hadv scanningInfo h1) with ⟨task, hc, hno⟩ | ⟨e, hc, hyes⟩
        · left
          refine ⟨task, by simp only [scanningJobTask, h1, h2, h3, hc], ?_⟩
          rintro (⟨err, herr⟩ | ⟨info, err, hinfo, herr⟩ | ⟨err, herr⟩ | ⟨info, err, hinfo, hs, herr⟩)
          · rw [h1] at herr; cases herr
          · rw [h1] at hinfo; cases hinfo; rw [h2] at herr; cases herr
          · rw [h3] at herr; cases herr
          · rw [h1] at hinfo; cases hinfo; exact hno ⟨hs, err, herr⟩
        · right
          obtain ⟨hs, err, herr⟩ := hyes
          exact ⟨e, by simp only [scanningJobTask, h1, h2, h3, hc],
            Or.inr (Or.inr (Or.inr ⟨scanningInfo, err, h1, hs, herr⟩))⟩

/-- The loop over sub-targets whose stored definitions all have an advanced
setting returns, and it returns an error exactly when a sub-target does not
resolve. -/
theorem toJobsLoop_error_iff (d : Deps) (j : ScanningJob) (taskID : Int)
    (scannings : List ScanningModule) (resp : List JobTask)
    (hadv : ∀ scanning ∈ scannings, ∀ scanningInfo,
      d.ScanningFind j.workflow.Project scanning.Name = .ok scanningInfo →
        scanningInfo.AdvancedSetting ≠ none) :
    ∃ out err, toJobsLoop d j taskID scannings resp = .returned (out, err) ∧
      (err ≠ none ↔ ∃ scanning ∈ scannings, Unresolved d j.workflow.Project scanning) := by
  induction scannings generalizing resp with
  | nil => exact ⟨resp, none, rfl, by simp⟩
  | cons scanning rest ih =>
    unfold toJobsLoop
    rcases scanningJobTask_cases d j taskID scanning
        (hadv scanning (List.mem_cons_self _ _)) with ⟨task, hround, hno⟩ | ⟨e, hround, hyes⟩
    · obtain ⟨out, err, hloop, hiff⟩ := ih (resp ++ [task])
        (fun s hs => hadv s (List.mem_cons_of_mem _ hs))
      refine ⟨out, err, by simp only [hround, hloop], ?_⟩
      rw [hiff]
      constructor
      · rintro ⟨s, hs, hun⟩
        exact ⟨s, List.mem_cons_of_mem _ hs, hun⟩
      · rintro ⟨s, hs, hun⟩
        rcases List.mem_cons.1 hs with rfl | hs
        · exact absurd hun hno
        · exact ⟨s, hs, hun⟩
    · refine ⟨resp, some e, by simp only [hround], ?_⟩
      constructor
      · intro _
        exact ⟨scanning, List.mem_cons_self _ _, hyes⟩
      · intro _ hnone
        cases hnone

/-- C16: when the payload decodes and every stored definition that is found has
an advanced setting, `ToJobs` returns, and it returns an error if and only if
for some declared sub-target the stored scan definition is not found, or its
base image is not found, or the registry listing fails, or the definition uses
the code-quality-server engine and its quality-server integration is not found.
The error of the result-URL resolver is not among the causes: it never makes
`ToJobs` fail. -/
theorem scanning_toJobs_error_iff (d : Deps) (j : ScanningJob) (taskID : Int)
    (hdec : (d.IToiScanning j.job.Spec).2 = none)
    (hadv : ∀ scanning ∈ (d.IToiScanning j.job.Spec).1.Scannings, ∀ scanningInfo,
      d.ScanningFind j.workflow.Project scanning.Name = .ok scanningInfo →
        scanningInfo.AdvancedSetting ≠ none) :
    ∃ j1 resp err, j.ToJobs d taskID = .returned (j1, resp, err) ∧
      (err ≠ none ↔
        ∃ scanning ∈ (d.IToiScanning j.job.Spec).1.Scannings,
          (∃ e, d.ScanningFind j.workflow.Project scanning.Name = .error e) ∨
          (∃ scanningInfo e, d.ScanningFind j.workflow.Project scanning.Name = .ok scanningInfo ∧
            d.BasicImageFind scanningInfo.ImageID = .error e) ∨
          (∃ e, d.ListRegistryNamespaces = .error e) ∨
          (∃ scanningInfo e, d.ScanningFind j.workflow.Project scanning.Name = .ok scanningInfo ∧
            scanningInfo.ScannerType = d.consts.ScanningTypeSonar ∧
            d.SonarGetByID scanningInfo.SonarID = .error e)) := by
  obtain ⟨out, err, hloop, hiff⟩ := toJobsLoop_error_iff d
    { j with spec := some (d.IToiScanning j.job.Spec).1,
             job := { j.job with Spec := .scanning (d.IToiScanning j.job.Spec).1 } }
    taskID (d.IToiScanning j.job.Spec).1.Scannings [] hadv
  exact ⟨_, out, err, by simp only [ScanningJob.ToJobs, hdec, hloop]; rfl, hiff⟩

/-- C16 (witness): the scanning job `scan` with the sub-targets `lint-svc` and
`sonar-svc`, whose stored definitions both have an advanced setting; the
result-URL resolver of `exampleScanDeps` always fails. -/
theorem scanning_toJobs_error_iff_witness :
    (exampleScanDeps.IToiScanning exampleTwoScanJob.job.Spec).2 = none ∧
    (∀ scanning ∈ (exampleScanDeps.IToiScanning exampleTwoScanJob.job.Spec).1.Scannings,
      ∀ scanningInfo,
        exampleScanDeps.ScanningFind exampleTwoScanJob.workflow.Project scanning.Name
            = .ok scanningInfo →
          scanningInfo.AdvancedSetting ≠ none) ∧
    ∃ j1 resp err, exampleTwoScanJob.ToJobs exampleScanDeps 7 = .returned (j1, resp, err) ∧
      (err ≠ none ↔
        ∃ scanning ∈ (exampleScanDeps.IToiScanning exampleTwoScanJob.job.Spec).1.Scannings,
          (∃ e, exampleScanDeps.ScanningFind exampleTwoScanJob.workflow.Project scanning.Name
              = .error e) ∨
          (∃ scanningInfo e,
            exampleScanDeps.ScanningFind exampleTwoScanJob.workflow.Project scanning.Name
              = .ok scanningInfo ∧
            exampleScanDeps.BasicImageFind scanningInfo.ImageID = .error e) ∨
          (∃ e, exampleScanDeps.ListRegistryNamespaces = .error e) ∨
          (∃ scanningInfo e,
            exampleScanDeps.ScanningFind exampleTwoScanJob.workflow.Project scanning.Name
              = .ok scanningInfo ∧
            scanningInfo.ScannerType = exampleScanDeps.consts.ScanningTypeSonar ∧
            exampleScanDeps.SonarGetByID scanningInfo.SonarID = .error e)) :=
  have hadv : ∀ scanning ∈ (exampleScanDeps.IToiScanning exampleTwoScanJob.job.Spec).1.Scannings,
      ∀ scanningInfo,
        exampleScanDeps.ScanningFind exampleTwoScanJob.workflow.Project scanning.Name
            = .ok scanningInfo →
          scanningInfo.AdvancedSetting ≠ none := by
    intro scanning hmem scanningInfo hfind
    change scanning ∈ [exampleModule "lint-svc", exampleModule "sonar-svc"] at hmem
    simp only [List.mem_cons, List.mem_singleton, List.not_mem_nil, or_false] at hmem
    rcases hmem with rfl | rfl
    · have hinfo : Except.ok exampleLintScanning = (Except.ok scanningInfo : Except GoError Scanning) :=
        hfind
      cases hinfo
      decide
    · have hinfo : Except.ok exampleSonarScanning = (Except.ok scanningInfo : Except GoError Scanning) :=
        hfind
      cases hinfo
      decide
  ⟨rfl, hadv, scanning_toJobs_error_iff exampleScanDeps exampleTwoScanJob 7 rfl hadv⟩

/-- A round of the loop on a stored definition without advanced setting stops in
a panic, whatever else the definition holds. -/
theorem scanningCompile_nil_advanced (d : Deps) (j : ScanningJob) (taskID : Int)
    (scanning : ScanningModule) (scanningInfo : Scanning) (basicImage : BasicImage)
    (registries : List RegistryNamespace) (hnil : scanningInfo.AdvancedSetting = none) :
    scanningCompile d j taskID scanning scanningInfo basicImage registries
      = .panicked "invalid memory address or nil pointer dereference" := by
  simp only [scanningCompile, hnil]

/-- C17 (the code at the failing input): the scanning job `scan` has the
sub-target `plain-svc`; its stored definition resolves, has no advanced setting,
and its base image and the registries resolve.  `ToJobs` does not run to a
result: it panics on reading a field of the missing advanced setting, where the
claim asks for a Task Unit with timeout 0. -/
theorem scanning_toJobs_panics_without_advanced_setting :
    exampleScanDeps.ScanningFind examplePlainJob.workflow.Project "plain-svc"
      = .ok examplePlainScanning ∧
    examplePlainScanning.AdvancedSetting = none ∧
    exampleScanDeps.BasicImageFind examplePlainScanning.ImageID
      = .ok { Value := "ubuntu:20.04", ImageFrom := "custom" } ∧
    exampleScanDeps.ListRegistryNamespaces = .ok [] ∧
    examplePlainJob.ToJobs exampleScanDeps 7
      = .panicked "invalid memory address or nil pointer dereference" := by
  refine ⟨rfl, rfl, rfl, rfl, rfl⟩

end Zadig
